import Mathlib

set_option maxRecDepth 8192

/-!
Verification of the OTA update module `modota.c` of MicroPython_ESP32_psRAM_LoBo.

The development shallowly embeds the C source as executable Lean functions:

* `get_header`     — the HTTP header splitter (`get_header` in the source),
  including its exact window-index arithmetic (the continuation read is capped
  by `512 - buff_len`, the size of the *last* read, exactly as in the source);
* `mpy_ota_update`     — the network update session;
* `mpy_ota_fileupdate` — the local-file update session;
* `mod_ota_set_boot`   — the set-boot-partition request.

External collaborators (sockets, files, flash, mbedtls MD5) are modelled as
environment inputs:

* the TCP stream is a list of pending bytes plus a schedule of read sizes; a
  `recv` with a positive capacity delivers at least one byte while data
  remains, and 0 once the stream is exhausted (a closed connection; `recv`
  errors behave identically to a close for this code's control flow);
* `esp_ota_begin/write/end`, `esp_ota_set_boot_partition`, `malloc`, `connect`
  and `send` results are Boolean environment fields, and each attempt is
  recorded in an event trace;
* the MD5 implementation (mbedtls, outside this repository) is an abstract
  function argument `md5fn` from the full written byte stream to 16 digest
  bytes; the incremental `mbedtls_md5_update` calls of the source feed exactly
  the concatenation of written chunks, which the model accumulates;
* the filesystem is a function from path to optional file contents.

Machine integers: all byte and length values are modelled as `Nat`/`Int`.
`int` expressions that the source implicitly converts to `size_t` at `recv`
call sites are modelled with truncated `Nat` subtraction; a negative value
there can only arise in runs that have already overflowed the 513-byte
`text` window (undefined behaviour in C, see the window-overflow theorem).
-/

/-! ## Byte-list utilities (C string primitives) -/

/-- The value of a C `char` array viewed as a NUL-terminated string:
the bytes before the first 0. -/
def cstr (l : List Nat) : List Nat := l.takeWhile (fun c => c ≠ 0)

/-- Boolean test that `pat` is a leading run of `l` (what `strncmp == 0`
checks at a given offset). -/
def isPre : List Nat → List Nat → Bool
  | [], _ => true
  | _ :: _, [] => false
  | a :: p, b :: l => a == b && isPre p l

/-- Index of the first occurrence of `pat` inside `l`: the `strstr` offset
(over an already NUL-truncated list). -/
def findSub (pat : List Nat) : List Nat → Option Nat
  | [] => if isPre pat [] then some 0 else none
  | a :: l => if isPre pat (a :: l) then some 0 else (findSub pat (l)).map (fun i => i + 1)

/-- ASCII whitespace accepted by `strtol`. -/
def isSpace (c : Nat) : Bool := c = 32 || c = 9 || c = 10 || c = 11 || c = 12 || c = 13

/-- Digit value of byte `c` in base `base`, if any. -/
def digitVal (base c : Nat) : Option Nat :=
  if 48 ≤ c ∧ c ≤ 57 ∧ c - 48 < base then some (c - 48)
  else if base = 16 ∧ 97 ≤ c ∧ c ≤ 102 then some (c - 87)
  else if base = 16 ∧ 65 ≤ c ∧ c ≤ 70 then some (c - 55)
  else none

/-- Accumulate the leading digit run. -/
def digitsVal (base : Nat) : List Nat → Nat → Nat
  | [], acc => acc
  | c :: l, acc =>
    match digitVal base c with
    | some d => digitsVal base l (acc * base + d)
    | none => acc

/-- `strtol(s, NULL, 0)`: optional whitespace and sign, then a `0x` hex,
leading-`0` octal, or decimal digit run. -/
def strtol0 (l : List Nat) : Int :=
  let l1 := l.dropWhile isSpace
  let sign : Int := match l1 with | 45 :: _ => -1 | _ => 1
  let l2 : List Nat := match l1 with | 45 :: t => t | 43 :: t => t | _ => l1
  match l2 with
  | 48 :: 120 :: t => sign * digitsVal 16 t 0
  | 48 :: 88 :: t => sign * digitsVal 16 t 0
  | 48 :: t => sign * digitsVal 8 t 0
  | t => sign * digitsVal 10 t 0

/-- Bytes of the header/body delimiter `\r\n\r\n`. -/
def CRLF2 : List Nat := [13, 10, 13, 10]

/-- Bytes of a line delimiter `\r\n`. -/
def CRLF : List Nat := [13, 10]

/-- Bytes of the literal `Content-Length: ` (16 characters, the `+16` offset
used by the source). -/
def CLKEY : List Nat := [67, 111, 110, 116, 101, 110, 116, 45, 76, 101, 110, 103, 116, 104, 58, 32]

/-- The declared length the source extracts from the truncated header text
`H` (the bytes strictly before the `\r\n\r\n` delimiter): first occurrence of
`Content-Length: `, then a `\r\n` terminator must still follow within `H`
(this fails when `Content-Length` is the final header line, because the
delimiter's first byte has been overwritten with NUL), then `strtol` base 0. -/
def clParse (H : List Nat) : Option Int :=
  match findSub CLKEY H with
  | none => none
  | some c =>
    match findSub CRLF (H.drop c) with
    | none => none
    | some _ => some (strtol0 (H.drop (c + 16)))

/-! ## The network stream -/

/-- `BUFFSIZE` of the source. -/
def BUFFSIZE : Nat := 4096

/-- A TCP stream: the bytes still to be delivered, and a schedule of how many
bytes the stack hands over per `recv` call (nondeterminism input; an empty or
exhausted schedule delivers as much as the capacity allows). -/
structure Net where
  data : List Nat
  sched : List Nat
  deriving DecidableEq

/-- One blocking `recv` of at most `cap` bytes: delivers at least one byte
while data remains (and `cap > 0`), and the empty chunk exactly when the
stream is exhausted (the peer closed) or `cap = 0`. -/
def recvN (net : Net) (cap : Nat) : List Nat × Net :=
  if net.data.isEmpty || cap == 0 then ([], net)
  else
    let want : Nat := match net.sched with
      | [] => cap
      | s :: _ => min (max s 1) cap
    let k := min want net.data.length
    (net.data.take k, ⟨net.data.drop k, net.sched.tail⟩)

/-! ## `get_header` -/

/-- Result of `get_header`: the body bytes left in the caller's buffer (the
source's returned `body_len` equals `body.length` at every return site), the
final `*expect_len`, whether the `Image length bigger than partition size`
early return was taken, the remaining stream, and the highest index of the
513-byte `text` array written to (data bytes or NUL terminators). -/
structure GHResult where
  body : List Nat
  expect : Int
  tooLarge : Bool
  net : Net
  maxWrite : Nat
  deriving DecidableEq

/-- The `while (body_len < min_size)` read loop following the delimiter:
appends chunks of at most `BUFFSIZE - idx` bytes (`idx` frozen at its value
when the delimiter was found, exactly as in the source). -/
def gh_minloop (fuel : Nat) (net : Net) (body : List Nat) (cap : Nat) (minSize : Nat)
    (expect : Int) (tl : Bool) (maxW : Nat) : GHResult :=
  match fuel with
  | 0 => ⟨body, expect, tl, net, maxW⟩
  | fuel + 1 =>
    if body.length < minSize then
      match recvN net cap with
      | (chunk, net1) =>
        if chunk.isEmpty then ⟨body, expect, tl, net1, maxW⟩
        else gh_minloop fuel net1 (body ++ chunk) cap minSize expect tl maxW
    else ⟨body, expect, tl, net, maxW⟩

/-- One iteration of the header-accumulation `while (buff_len > 0)` loop.
`acc` is the full received prefix (`text[0..idx+buffLen)`); the iteration
first writes the terminator `text[idx+buffLen] = 0`, searches the C string
for `\r\n\r\n`, and on success extracts `Content-Length`, copies the body
bytes that followed the delimiter and tops them up to `minSize`; otherwise
it advances `idx` and issues the continuation read capped by
`512 - buffLen` at offset `idx` — the source's own (buggy) arithmetic. -/
def gh_loop (fuel : Nat) (net : Net) (acc : List Nat) (idx buffLen : Nat)
    (expect0 : Int) (maxSize : Int) (minSize : Nat) (maxW : Nat) : GHResult :=
  match fuel with
  | 0 => ⟨[], expect0, false, net, maxW⟩
  | fuel + 1 =>
    match findSub CRLF2 (cstr acc) with
    | some d =>
      match clParse ((cstr acc).take d) with
      | some v =>
        if 0 < v ∧ maxSize < v then ⟨[], v, true, net, max maxW (idx + buffLen)⟩
        else
          gh_minloop (net.data.length + 1) net ((acc.take (idx + buffLen)).drop (d + 4))
            (BUFFSIZE - idx) minSize v false (max maxW (idx + buffLen))
      | none =>
        gh_minloop (net.data.length + 1) net ((acc.take (idx + buffLen)).drop (d + 4))
          (BUFFSIZE - idx) minSize expect0 false (max maxW (idx + buffLen))
    | none =>
      if 512 ≤ buffLen then ⟨[], expect0, false, net, max maxW (idx + buffLen)⟩
      else
        match recvN net (512 - buffLen) with
        | (chunk, net1) =>
          if chunk.isEmpty then ⟨[], expect0, false, net1, max maxW (idx + buffLen)⟩
          else
            gh_loop fuel net1 (acc ++ chunk) (idx + buffLen) chunk.length expect0 maxSize
              minSize (max maxW (idx + buffLen))

/-- `get_header(ota_write_data, expect_len, max_size, min_size)` of the
source, as a function of the stream.  `expect0` is the value of
`*expect_len` on entry (the callers pass a fresh 0). -/
def get_header (net : Net) (expect0 : Int) (maxSize : Int) (minSize : Nat) : GHResult :=
  match recvN net 512 with
  | (chunk, net1) =>
    if chunk.isEmpty then ⟨[], expect0, false, net1, 0⟩
    else gh_loop (net1.data.length + 1) net1 chunk 0 chunk.length expect0 maxSize minSize 0

example :
    (get_header ⟨[72, 13, 10, 13, 10, 233, 7, 8], []⟩ 0 1000 1).body = [233, 7, 8] := by decide

example :
    (get_header ⟨[72, 13, 10, 13, 10, 233, 7, 8], []⟩ 0 1000 1).expect = 0 := by decide

/-! ## Partitions -/

/-- An entry of the device partition table (label, subtype, capacity). -/
structure Partition where
  ptype : Nat
  subtype : Nat
  label : String
  size : Nat
  deriving DecidableEq

/-- `ESP_PARTITION_TYPE_APP`. -/
def TYPE_APP : Nat := 0

/-- `ESP_PARTITION_SUBTYPE_APP_FACTORY`. -/
def SUBTYPE_FACTORY : Nat := 0

/-- `ESP_PARTITION_SUBTYPE_APP_OTA_0` (0x10). -/
def SUBTYPE_OTA0 : Nat := 16

/-- `ESP_PARTITION_SUBTYPE_APP_OTA_1` (0x11). -/
def SUBTYPE_OTA1 : Nat := 17

/-- `esp_partition_find_first` with a non-NULL label: the first table entry
matching type, subtype and label exactly. -/
def esp_partition_find_first (table : List Partition) (ty sub : Nat) (label : String) :
    Option Partition :=
  table.find? (fun p => p.ptype == ty && p.subtype == sub && p.label == label)

/-! ## Events, exit reasons, session results -/

/-- Calls into the flash/boot collaborators, in order of occurrence. -/
inductive Ev where
  | otaBegin : Ev
  | otaWrite : List Nat → Ev
  | otaEnd : Ev
  | setBoot : Partition → Ev
  deriving DecidableEq

/-- The exit taken by a session; each constructor corresponds to one
`goto exit` (or final success) site of the source.  `imageTooLarge` is the
early return inside `get_header` that logs
`Image length bigger than partition size`. -/
inductive Reason where
  | ok | noRunning | selfUpdate | noUpdatePartition | mallocFail | otaBeginFail
  | connectFail | sendFail | md5NotReceived | noBody | imageTooLarge | badMagic
  | otaWriteFail | overrunExpected | overrunPartition | lengthMismatch | md5Mismatch
  | otaEndFail | setBootFail | sourceNotFound | sourceTooSmall | readFail | fuelOut
  deriving DecidableEq

/-- Observable outcome of one update session. -/
structure RunResult where
  ok : Bool
  reason : Reason
  events : List Ev
  written : Nat
  bytes : List Nat
  expect : Int
  target : Option Partition
  remoteMd5 : List Nat
  digestCompared : Bool
  deriving DecidableEq

/-- State carried out of a transfer loop. -/
structure LoopOut where
  aborted : Option Reason
  written : Nat
  bytes : List Nat
  evs : List Ev
  net : Net
  deriving DecidableEq

/-- Sum of flash-write chunk sizes in an event list. -/
def writeSum (evs : List Ev) : Nat :=
  evs.foldr (fun e a => match e with | Ev.otaWrite c => c.length + a | _ => a) 0

/-- Lower-case hex digit byte. -/
def hexDigit (n : Nat) : Nat := if n < 10 then 48 + n else 87 + n

/-- The `sprintf("%02x")` rendering of the digest bytes (lines 300–302 and
490–492 of the source). -/
def md5hex (bs : List Nat) : List Nat :=
  (bs.map (fun b => [hexDigit (b / 16 % 16), hexDigit (b % 16)])).flatten

/-- A failure result with nothing written. -/
def failRun (r : Reason) (evs : List Ev) (tgt : Option Partition) (expect : Int)
    (rm : List Nat) : RunResult :=
  ⟨false, r, evs, 0, [], expect, tgt, rm, false⟩

/-! ## Shared partition resolution (lines 151–168 and 365–382) -/

/-- Running-partition check, forced-factory self-overwrite check, and target
lookup, identical in `mpy_ota_update` and `mpy_ota_fileupdate`. -/
def resolveUpd (table : List Partition) (running : Option Partition)
    (nextUpd : Option Partition) (ff : Bool) : Except Reason Partition :=
  match running with
  | none => .error .noRunning
  | some rp =>
    if ff then
      if rp.subtype = SUBTYPE_FACTORY then .error .selfUpdate
      else
        match esp_partition_find_first table TYPE_APP SUBTYPE_FACTORY ("MicroPython") with
        | none => .error .noUpdatePartition
        | some p => .ok p
    else
      match nextUpd with
      | none => .error .noUpdatePartition
      | some p => .ok p

/-! ## The network session -/

/-- Environment of `mpy_ota_update`: partition table, results of the external
partition queries, Boolean outcomes of the external calls, and the two TCP
streams (checksum fetch and image fetch — the source opens a fresh
connection for each). -/
structure NetEnv where
  table : List Partition
  running : Option Partition
  nextUpdate : Option Partition
  mallocOk : Bool
  otaBeginOk : Bool
  otaWriteOk : Bool
  otaEndOk : Bool
  setBootOk : Bool
  connectOk1 : Bool
  sendOk1 : Bool
  connectOk2 : Bool
  sendOk2 : Bool
  md5Net : Net
  imgNet : Net

/-- The `while (body_len > 0)` transfer loop (lines 277–297): write the
current chunk, feed the digest, pull the next chunk with `recv(BUFFSIZE)`,
and run the declared-length and capacity guards before the next write. -/
def ota_transfer_loop (fuel : Nat) (net : Net) (buf : List Nat) (expect : Int) (cap : Nat)
    (writeOk : Bool) (written : Nat) (bytes : List Nat) (evs : List Ev) : LoopOut :=
  match fuel with
  | 0 => ⟨some .fuelOut, written, bytes, evs, net⟩
  | fuel + 1 =>
    if buf.isEmpty then ⟨none, written, bytes, evs, net⟩
    else if !writeOk then
      ⟨some .otaWriteFail, written, bytes ++ buf, evs ++ [Ev.otaWrite buf], net⟩
    else
      match recvN net BUFFSIZE with
      | (chunk, net1) =>
        if 0 < expect ∧ ((written + buf.length + chunk.length : Nat) : Int) > expect then
          ⟨some .overrunExpected, written + buf.length, bytes ++ buf,
            evs ++ [Ev.otaWrite buf], net1⟩
        else if cap < written + buf.length + chunk.length then
          ⟨some .overrunPartition, written + buf.length, bytes ++ buf,
            evs ++ [Ev.otaWrite buf], net1⟩
        else
          ota_transfer_loop fuel net1 chunk expect cap writeOk (written + buf.length)
            (bytes ++ buf) (evs ++ [Ev.otaWrite buf])

/-- Lines 298–336: digest rendering, declared-length equality check, remote
digest comparison, `esp_ota_end`, `esp_ota_set_boot_partition`. -/
def postNet (upd : Partition) (md5F : Bool) (remote : List Nat)
    (md5fn : List Nat → List Nat) (expect : Int) (endOk setBootOk : Bool)
    (lo : LoopOut) : RunResult :=
  match lo.aborted with
  | some r => ⟨false, r, lo.evs, lo.written, lo.bytes, expect, some upd, remote, false⟩
  | none =>
    if 0 < expect ∧ expect ≠ (lo.written : Int) then
      ⟨false, .lengthMismatch, lo.evs, lo.written, lo.bytes, expect, some upd, remote, false⟩
    else if (md5F && remote.length == 32) && remote ≠ md5hex (md5fn lo.bytes) then
      ⟨false, .md5Mismatch, lo.evs, lo.written, lo.bytes, expect, some upd, remote,
        md5F && remote.length == 32⟩
    else if !endOk then
      ⟨false, .otaEndFail, lo.evs ++ [Ev.otaEnd], lo.written, lo.bytes, expect, some upd,
        remote, md5F && remote.length == 32⟩
    else if !setBootOk then
      ⟨false, .setBootFail, lo.evs ++ [Ev.otaEnd, Ev.setBoot upd], lo.written, lo.bytes,
        expect, some upd, remote, md5F && remote.length == 32⟩
    else
      ⟨true, .ok, lo.evs ++ [Ev.otaEnd, Ev.setBoot upd], lo.written, lo.bytes, expect,
        some upd, remote, md5F && remote.length == 32⟩

/-- Lines 189–225: the optional MD5 pre-fetch over its own connection.
Returns the 32-character remote digest, or the failure result. -/
def md5Stage (env : NetEnv) (md5F : Bool) (upd : Partition) : Except RunResult (List Nat) :=
  if !md5F then .ok []
  else if !env.connectOk1 then .error (failRun .connectFail [Ev.otaBegin] (some upd) 0 [])
  else if !env.sendOk1 then .error (failRun .sendFail [Ev.otaBegin] (some upd) 0 [])
  else
    if (if 32 ≤ (get_header env.md5Net 0 128 32).body.length then
          cstr ((get_header env.md5Net 0 128 32).body.take 32) else []).length == 32 then
      .ok (if 32 ≤ (get_header env.md5Net 0 128 32).body.length then
        cstr ((get_header env.md5Net 0 128 32).body.take 32) else [])
    else
      .error (failRun .md5NotReceived [Ev.otaBegin] (some upd)
        (get_header env.md5Net 0 128 32).expect [])

/-- Lines 227–336: connect and request the image, split the header, check the
magic byte, then transfer and commit.  `gh` is the header-split of the image
stream (computed from the stream value; the source interleaves the connect
and send failures before it, which cannot affect its value). -/
def imageStage (env : NetEnv) (md5fn : List Nat → List Nat) (gh : GHResult)
    (upd : Partition) (md5F : Bool) (remote : List Nat) : RunResult :=
  if !env.connectOk2 then failRun .connectFail [Ev.otaBegin] (some upd) 0 remote
  else if !env.sendOk2 then failRun .sendFail [Ev.otaBegin] (some upd) 0 remote
  else if gh.body.length = 0 then
    failRun (if gh.tooLarge then .imageTooLarge else .noBody) [Ev.otaBegin] (some upd)
      gh.expect remote
  else if gh.body.head? ≠ some 233 then
    failRun .badMagic [Ev.otaBegin] (some upd) gh.expect remote
  else
    postNet upd md5F remote md5fn gh.expect env.otaEndOk env.setBootOk
      (ota_transfer_loop (gh.net.data.length + 2) gh.net gh.body gh.expect upd.size
        env.otaWriteOk 0 [] [Ev.otaBegin])

/-- `mpy_ota_update(server, port, name, md5, force_fact)`, lines 137–346. -/
def mpy_ota_update (env : NetEnv) (md5fn : List Nat → List Nat) (md5F ff : Bool) : RunResult :=
  match resolveUpd env.table env.running env.nextUpdate ff with
  | .error r => failRun r [] none 0 []
  | .ok upd =>
    if !env.mallocOk then failRun .mallocFail [] (some upd) 0 []
    else if !env.otaBeginOk then failRun .otaBeginFail [Ev.otaBegin] (some upd) 0 []
    else
      match md5Stage env md5F upd with
      | .error r => r
      | .ok remote =>
        imageStage env md5fn (get_header env.imgNet 0 (upd.size : Int) 1) upd md5F remote

/-! ## The local-file session -/

/-- Environment of `mpy_ota_fileupdate`: the filesystem is a pure map from
path to optional contents (`stat`, `fopen` and `fread` all read it). -/
structure FileEnv where
  table : List Partition
  running : Option Partition
  nextUpdate : Option Partition
  mallocOk : Bool
  otaBeginOk : Bool
  otaWriteOk : Bool
  otaEndOk : Bool
  setBootOk : Bool
  fs : String → Option (List Nat)

/-- The `while (rd_len > 0)` file transfer loop (lines 464–487): write the
chunk, feed the digest, decrement `remaining` and break when it reaches 0,
then `fread` the next chunk and run the size guards (the first of which
assigns a trimmed `rd_len` it never uses before `goto exit`).  The `net`
field of the result carries the unread file suffix. -/
def file_loop (fuel : Nat) (rest : List Nat) (buf : List Nat) (expect : Int) (cap : Nat)
    (writeOk : Bool) (written : Nat) (remaining : Int) (bytes : List Nat)
    (evs : List Ev) : LoopOut :=
  match fuel with
  | 0 => ⟨some .fuelOut, written, bytes, evs, ⟨rest, []⟩⟩
  | fuel + 1 =>
    if buf.isEmpty then ⟨none, written, bytes, evs, ⟨rest, []⟩⟩
    else if !writeOk then
      ⟨some .otaWriteFail, written, bytes ++ buf, evs ++ [Ev.otaWrite buf], ⟨rest, []⟩⟩
    else if remaining - (buf.length : Nat) ≤ 0 then
      ⟨none, written + buf.length, bytes ++ buf, evs ++ [Ev.otaWrite buf], ⟨rest, []⟩⟩
    else if ((written + buf.length + (rest.take BUFFSIZE).length : Nat) : Int) > expect then
      ⟨some .overrunExpected, written + buf.length, bytes ++ buf, evs ++ [Ev.otaWrite buf],
        ⟨rest.drop BUFFSIZE, []⟩⟩
    else if cap < written + buf.length + (rest.take BUFFSIZE).length then
      ⟨some .overrunPartition, written + buf.length, bytes ++ buf, evs ++ [Ev.otaWrite buf],
        ⟨rest.drop BUFFSIZE, []⟩⟩
    else
      file_loop fuel (rest.drop BUFFSIZE) (rest.take BUFFSIZE) expect cap writeOk
        (written + buf.length) (remaining - (buf.length : Nat)) (bytes ++ buf)
        (evs ++ [Ev.otaWrite buf])

/-- Lines 488–530: digest rendering, file-size equality check, sidecar digest
comparison, `esp_ota_end`, `esp_ota_set_boot_partition`. -/
def postFile (upd : Partition) (fileMd5 : List Nat) (md5fn : List Nat → List Nat)
    (expect : Int) (endOk setBootOk : Bool) (lo : LoopOut) : RunResult :=
  match lo.aborted with
  | some r => ⟨false, r, lo.evs, lo.written, lo.bytes, expect, some upd, fileMd5, false⟩
  | none =>
    if expect ≠ (lo.written : Int) then
      ⟨false, .lengthMismatch, lo.evs, lo.written, lo.bytes, expect, some upd, fileMd5, false⟩
    else if (fileMd5.length == 32) && fileMd5 ≠ md5hex (md5fn lo.bytes) then
      ⟨false, .md5Mismatch, lo.evs, lo.written, lo.bytes, expect, some upd, fileMd5,
        fileMd5.length == 32⟩
    else if !endOk then
      ⟨false, .otaEndFail, lo.evs ++ [Ev.otaEnd], lo.written, lo.bytes, expect, some upd,
        fileMd5, fileMd5.length == 32⟩
    else if !setBootOk then
      ⟨false, .setBootFail, lo.evs ++ [Ev.otaEnd, Ev.setBoot upd], lo.written, lo.bytes,
        expect, some upd, fileMd5, fileMd5.length == 32⟩
    else
      ⟨true, .ok, lo.evs ++ [Ev.otaEnd, Ev.setBoot upd], lo.written, lo.bytes, expect,
        some upd, fileMd5, fileMd5.length == 32⟩

/-- The sidecar-digest load of lines 400–421.  The source builds `md5_fname`
with `strcpy(md5_fname, fname)` and never appends any suffix, so the path it
consults is the update file's own path: a digest is loaded exactly when that
file's size is in [32, 100) and its first 32 bytes are NUL-free. -/
def loadFileMd5 (fs : String → Option (List Nat)) (fname : String) : List Nat :=
  match fs fname with
  | some c => if 32 ≤ c.length ∧ c.length < 100 then cstr (c.take 32) else []
  | none => []

/-- `mpy_ota_fileupdate(fname, force_fact)`, lines 349–530. -/
def mpy_ota_fileupdate (env : FileEnv) (md5fn : List Nat → List Nat) (fname : String)
    (ff : Bool) : RunResult :=
  match resolveUpd env.table env.running env.nextUpdate ff with
  | .error r => failRun r [] none 0 []
  | .ok upd =>
    if !env.mallocOk then failRun .mallocFail [] (some upd) 0 []
    else if !env.otaBeginOk then failRun .otaBeginFail [Ev.otaBegin] (some upd) 0 []
    else
      match env.fs fname with
      | none => failRun .sourceNotFound [Ev.otaBegin] (some upd) 0 (loadFileMd5 env.fs fname)
      | some content =>
        if !(100000 < content.length) then
          failRun .sourceTooSmall [Ev.otaBegin] (some upd) (content.length : Int)
            (loadFileMd5 env.fs fname)
        else if (content.take BUFFSIZE).isEmpty then
          failRun .readFail [Ev.otaBegin] (some upd) (content.length : Int)
            (loadFileMd5 env.fs fname)
        else if (content.take BUFFSIZE).head? ≠ some 233 then
          failRun .badMagic [Ev.otaBegin] (some upd) (content.length : Int)
            (loadFileMd5 env.fs fname)
        else
          postFile upd (loadFileMd5 env.fs fname) md5fn (content.length : Int) env.otaEndOk
            env.setBootOk
            (file_loop (content.length + 2) (content.drop BUFFSIZE) (content.take BUFFSIZE)
              (content.length : Int) upd.size env.otaWriteOk 0 (content.length : Int)
              [] [Ev.otaBegin])

/-! ## The set-boot-partition request -/

/-- Outcome of `mod_ota_set_boot`: the Python-level Boolean and the partition
passed to `esp_ota_set_boot_partition`, if any. -/
structure SBResult where
  ok : Bool
  attempted : Option Partition
  deriving DecidableEq

/-- `mod_ota_set_boot`, lines 611–658: three `esp_partition_find_first`
lookups (factory, OTA_0, OTA_1), failure when all three miss, otherwise the
first in that order is committed. -/
def mod_ota_set_boot (table : List Partition) (label : String) (setOk : Bool) : SBResult :=
  if esp_partition_find_first table TYPE_APP SUBTYPE_FACTORY label = none ∧
      esp_partition_find_first table TYPE_APP SUBTYPE_OTA0 label = none ∧
      esp_partition_find_first table TYPE_APP SUBTYPE_OTA1 label = none then ⟨false, none⟩
  else
    match esp_partition_find_first table TYPE_APP SUBTYPE_FACTORY label with
    | some p => ⟨setOk, some p⟩
    | none =>
      match esp_partition_find_first table TYPE_APP SUBTYPE_OTA0 label with
      | some p => ⟨setOk, some p⟩
      | none =>
        match esp_partition_find_first table TYPE_APP SUBTYPE_OTA1 label with
        | some p => ⟨setOk, some p⟩
        | none => ⟨false, none⟩

/-! ## Concrete fixtures (used by witnesses and counterexamples) -/

/-- ASCII bytes of a string literal. -/
def tb (s : String) : List Nat := s.data.map Char.toNat

/-- A 1 MiB OTA slot. -/
def pOta2 : Partition := ⟨0, 17, "MicroPython2", 1048576⟩

/-- The running OTA slot of the fixtures. -/
def pOta1 : Partition := ⟨0, 16, "MicroPython1", 1048576⟩

/-- A network environment around a given image stream, everything external
succeeding, target `pOta2`. -/
def envWith (img : Net) (md5s : Net) : NetEnv :=
  ⟨[pOta1, pOta2], some pOta1, some pOta2, true, true, true, true, true, true, true,
    true, true, md5s, img⟩

/-- Response declaring 2000000 bytes with `Content-Length` not the final
header line. -/
def hdrBig : List Nat :=
  tb ("HTTP/1.1 200 OK\r\nContent-Length: 2000000\r\nX: 1\r\n\r\n") ++ [233, 1, 2, 3, 4]

/-- Response declaring 2000000 bytes with `Content-Length` as the final
header line (its terminating CRLF is the first half of the delimiter). -/
def hdrBigLast : List Nat :=
  tb ("HTTP/1.1 200 OK\r\nContent-Length: 2000000\r\n\r\n") ++ [233, 1, 2, 3, 4]

/-- Response declaring 3 bytes, carrying exactly 3 body bytes. -/
def hdrOk3 : List Nat :=
  tb ("HTTP/1.1 200 OK\r\nContent-Length: 3\r\nX: 1\r\n\r\n") ++ [233, 7, 9]

/-- A checksum response whose body is 32 ASCII `a` characters. -/
def md5RespA : List Nat := tb ("HTTP/1.1 200 OK\r\n\r\n") ++ List.replicate 32 97

/-- A digest function that is constantly sixteen zero bytes. -/
def md5Zero : List Nat → List Nat := fun _ => List.replicate 16 0

/-- Response declaring 9999999 bytes with `Content-Length` not the final
header line. -/
def hdrBig2 : List Nat :=
  tb ("HTTP/1.1 200 OK\r\nContent-Length: 9999999\r\nA: b\r\n\r\n") ++ [233, 5]

/-- Header declaring 500000 bytes (49 bytes long, delimiter at offset 45). -/
def hdr500k : List Nat :=
  tb ("HTTP/1.1 200 OK\r\nContent-Length: 500000\r\nX: 1\r\n\r\n")

/-- A stream declaring 500000 body bytes but delivering only 400000. -/
def D500 : List Nat := hdr500k ++ List.replicate 400000 233

/-- A response whose body starts with 7 rather than the 0xE9 magic. -/
def hdrBad : List Nat := tb ("A\r\n\r\n") ++ [7, 8]

/-- A factory partition labelled `MicroPython`. -/
def pFact : Partition := ⟨0, 0, "MicroPython", 1048576⟩

example : (mpy_ota_update (envWith ⟨hdrBig, []⟩ ⟨[], []⟩) md5Zero false false).reason
    = .imageTooLarge := by decide

example : (mpy_ota_update (envWith ⟨hdrBig, []⟩ ⟨[], []⟩) md5Zero false false).events
    = [Ev.otaBegin] := by decide

example : (mpy_ota_update (envWith ⟨hdrBigLast, []⟩ ⟨[], []⟩) md5Zero false false).reason
    = .ok := by decide

example : (mpy_ota_update (envWith ⟨hdrBigLast, []⟩ ⟨[], []⟩) md5Zero false false).events
    = [Ev.otaBegin, Ev.otaWrite [233, 1, 2, 3, 4], Ev.otaEnd, Ev.setBoot pOta2] := by decide

example : (mpy_ota_update (envWith ⟨hdrOk3, []⟩ ⟨[], []⟩) md5Zero false false).written
    = 3 := by decide

example : (mpy_ota_update (envWith ⟨hdrOk3, []⟩ ⟨[], []⟩) md5Zero false false).expect
    = 3 := by decide

example : (mpy_ota_update (envWith ⟨hdrOk3, []⟩ ⟨md5RespA, []⟩) md5Zero true false).reason
    = .md5Mismatch := by decide

example : (mpy_ota_update (envWith ⟨hdrOk3, []⟩ ⟨md5RespA, []⟩) md5Zero true false).remoteMd5
    = List.replicate 32 97 := by decide

example :
    (get_header ⟨List.replicate 600 65, [10, 502, 10]⟩ 0 100000 1).maxWrite = 600 := by decide

example :
    (get_header ⟨List.replicate 600 65, [10, 502, 10]⟩ 0 100000 1).body = [] := by decide

/-! ## Lemmas: substring search and C strings -/

/-- `pat` occurs in `l` at offset `j`. -/
def occursAt (pat l : List Nat) (j : Nat) : Prop := (l.drop j).take pat.length = pat

theorem isPre_iff {pat l : List Nat} : isPre pat l = true ↔ l.take pat.length = pat := by
  induction pat generalizing l with
  | nil => simp [isPre]
  | cons a p ih =>
    cases l with
    | nil => simp [isPre]
    | cons b t =>
      simp only [isPre, Bool.and_eq_true, beq_iff_eq, List.length_cons, List.take_succ_cons,
        List.cons.injEq, ih]
      constructor
      · rintro ⟨rfl, h⟩; exact ⟨rfl, h⟩
      · rintro ⟨rfl, h⟩; exact ⟨rfl, h⟩

theorem isPre_occursAt {pat l : List Nat} : isPre pat l = true ↔ occursAt pat l 0 := by
  simp [isPre_iff, occursAt]

theorem occursAt_of_drop {pat t : List Nat} {b : Nat} {j : Nat} :
    occursAt pat (b :: t) (j + 1) ↔ occursAt pat t j := by
  simp [occursAt]

theorem findSub_eq_some_iff {pat : List Nat} (hpat : pat ≠ []) {l : List Nat} {d : Nat} :
    findSub pat l = some d ↔ (occursAt pat l d ∧ ∀ j, j < d → ¬ occursAt pat l j) := by
  induction l generalizing d with
  | nil =>
    have h0 : isPre pat [] = false := by
      cases pat with
      | nil => exact absurd rfl hpat
      | cons a p => rfl
    have hocc : ∀ j, ¬ occursAt pat ([] : List Nat) j := by
      intro j hj
      exact hpat (by simpa [occursAt] using hj.symm)
    simp only [findSub, h0, Bool.false_eq_true, if_false]
    constructor
    · intro h; cases h
    · rintro ⟨h, -⟩; exact absurd h (hocc d)
  | cons b t ih =>
    by_cases h : isPre pat (b :: t) = true
    · rw [findSub, if_pos h]
      constructor
      · intro h2
        have hd : d = 0 := by injection h2 with h3; omega
        subst hd
        exact ⟨isPre_occursAt.mp h, by omega⟩
      · rintro ⟨-, hmin⟩
        cases d with
        | zero => rfl
        | succ d => exact absurd (isPre_occursAt.mp h) (hmin 0 (Nat.succ_pos d))
    · have h0 : ¬ occursAt pat (b :: t) 0 := fun hc => h (isPre_occursAt.mpr hc)
      rw [findSub, if_neg h]
      constructor
      · intro h2
        obtain ⟨e, he, hde⟩ := Option.map_eq_some'.mp h2
        obtain ⟨h1, h2m⟩ := ih.mp he
        subst hde
        refine ⟨occursAt_of_drop.mpr h1, ?_⟩
        intro j hj
        cases j with
        | zero => exact h0
        | succ j => exact fun hc => h2m j (by omega) (occursAt_of_drop.mp hc)
      · rintro ⟨h1, h2m⟩
        cases d with
        | zero => exact absurd h1 h0
        | succ e =>
          rw [Option.map_eq_some']
          refine ⟨e, ih.mpr ⟨occursAt_of_drop.mp h1, ?_⟩, rfl⟩
          intro j hj hcj
          exact h2m (j + 1) (by omega) (occursAt_of_drop.mpr hcj)

theorem findSub_ne_none {pat : List Nat} (hpat : pat ≠ []) {l : List Nat} {j : Nat}
    (hj : occursAt pat l j) : findSub pat l ≠ none := by
  induction l generalizing j with
  | nil => exact absurd (by simpa [occursAt] using hj.symm) hpat
  | cons b t ih =>
    rw [findSub]
    by_cases hbt : isPre pat (b :: t) = true
    · rw [if_pos hbt]; simp
    · rw [if_neg hbt]
      cases j with
      | zero => exact absurd (isPre_occursAt.mpr hj) hbt
      | succ j =>
        have hne := ih (occursAt_of_drop.mp hj)
        simp only [ne_eq, Option.map_eq_none']
        exact hne

theorem findSub_eq_none_iff {pat : List Nat} (hpat : pat ≠ []) {l : List Nat} :
    findSub pat l = none ↔ ∀ j, ¬ occursAt pat l j := by
  constructor
  · intro h j hj
    exact findSub_ne_none hpat hj h
  · intro h
    cases hf : findSub pat l with
    | none => rfl
    | some d => exact absurd ((findSub_eq_some_iff hpat).mp hf).1 (h d)

theorem occursAt_length {pat l : List Nat} (hpat : pat ≠ []) {j : Nat}
    (h : occursAt pat l j) : j + pat.length ≤ l.length := by
  have hp : 0 < pat.length := List.length_pos.mpr hpat
  have h1 : ((l.drop j).take pat.length).length = pat.length := by rw [h]
  simp only [List.length_take, List.length_drop] at h1
  have h2 : pat.length ≤ l.length - j := h1 ▸ min_le_right _ _
  omega

theorem occursAt_take {pat l : List Nat} {j n : Nat} (h : j + pat.length ≤ n) :
    occursAt pat (l.take n) j ↔ occursAt pat l j := by
  unfold occursAt
  rw [List.drop_take, List.take_take, min_eq_left (by omega)]

theorem occursAt_mono {pat l : List Nat} (hpat : pat ≠ []) {j m n : Nat} (hmn : m ≤ n)
    (h : occursAt pat (l.take m) j) : occursAt pat (l.take n) j := by
  have hj : j + pat.length ≤ m := by
    have := occursAt_length hpat h
    simp only [List.length_take] at this
    have h2 := min_le_left m l.length
    omega
  exact (occursAt_take (le_trans hj hmn)).mpr ((occursAt_take hj).mp h)

theorem takeWhile_take (p : Nat → Bool) (l : List Nat) (n : Nat) :
    (l.take n).takeWhile p = (l.takeWhile p).take n := by
  induction l generalizing n with
  | nil => simp
  | cons a t ih =>
    cases n with
    | zero => simp
    | succ n =>
      by_cases h : p a
      · simp [List.takeWhile_cons, h, ih]
      · simp [List.takeWhile_cons, h]

theorem cstr_take (l : List Nat) (n : Nat) : cstr (l.take n) = (cstr l).take n :=
  takeWhile_take _ l n

theorem cstr_eq_take_of_le (l : List Nat) {n : Nat} (h : n ≤ (cstr l).length) :
    (cstr l).take n = l.take n := by
  have hpre : cstr l <+: l := List.takeWhile_prefix _
  obtain ⟨t, ht⟩ := hpre
  conv_rhs => rw [← ht]
  rw [List.take_append_eq_append_take]
  have h2 : n - (cstr l).length = 0 := by omega
  rw [h2]
  simp

theorem cstr_length_le (l : List Nat) : (cstr l).length ≤ l.length := by
  have hpre : cstr l <+: l := List.takeWhile_prefix _
  obtain ⟨t, ht⟩ := hpre
  have h1 := congrArg List.length ht
  simp only [List.length_append] at h1
  omega

/-! ## Lemmas: the stream -/

theorem recvN_fst_append (net : Net) (cap : Nat) :
    (recvN net cap).1 ++ (recvN net cap).2.data = net.data := by
  unfold recvN
  split
  · simp
  · simp

theorem recvN_fst_length_le (net : Net) (cap : Nat) : (recvN net cap).1.length ≤ cap := by
  obtain ⟨data, sched⟩ := net
  unfold recvN
  dsimp only
  split
  · simp
  · cases sched with
    | nil =>
      simp only [List.length_take]
      exact le_trans (min_le_left _ _) (min_le_left _ _)
    | cons s t =>
      simp only [List.length_take]
      exact le_trans (min_le_left _ _) (le_trans (min_le_left _ _) (min_le_right _ _))

theorem recvN_fst_nil_iff (net : Net) {cap : Nat} (hcap : cap ≠ 0) :
    ((recvN net cap).1 = [] ↔ net.data = []) := by
  obtain ⟨data, sched⟩ := net
  unfold recvN
  dsimp only
  split
  · rename_i h
    simp only [Bool.or_eq_true, List.isEmpty_iff, beq_iff_eq] at h
    rcases h with h | h
    · simp [h]
    · exact absurd h hcap
  · rename_i h
    simp only [Bool.or_eq_true, List.isEmpty_iff, beq_iff_eq, not_or] at h
    obtain ⟨hd, -⟩ := h
    have hlen : 0 < data.length := List.length_pos.mpr hd
    constructor
    · intro hk
      rw [List.take_eq_nil_iff] at hk
      rcases hk with hk | hdata
      · exfalso
        rw [Nat.min_eq_zero_iff] at hk
        rcases hk with hk | hk
        · cases sched with
          | nil => exact hcap hk
          | cons s t =>
            rw [Nat.min_eq_zero_iff] at hk
            rcases hk with hk | hk
            · have := Nat.le_max_right s 1
              omega
            · exact hcap hk
        · omega
      · exact hdata
    · intro hdata
      exact absurd hdata hd

theorem recvN_fst_take (net : Net) (cap : Nat) :
    (recvN net cap).1 = net.data.take (recvN net cap).1.length := by
  unfold recvN
  split
  · simp
  · simp [List.take_take]

theorem recvN_snd_data (net : Net) (cap : Nat) :
    (recvN net cap).2.data = net.data.drop (recvN net cap).1.length := by
  unfold recvN
  split
  · simp
  · simp only []
    rw [List.length_take]
    congr 1
    omega

/-! ## Lemmas: `get_header` -/

theorem CRLF2_ne : CRLF2 ≠ ([] : List Nat) := by decide

theorem CRLF2_len : CRLF2.length = 4 := by decide

theorem gh_minloop_of_ge {fuel : Nat} {net : Net} {body : List Nat} {cap minSize : Nat}
    {e : Int} {tl : Bool} {w : Nat} (h : minSize ≤ body.length) :
    gh_minloop fuel net body cap minSize e tl w = ⟨body, e, tl, net, w⟩ := by
  cases fuel with
  | zero => rfl
  | succ fuel => rw [gh_minloop, if_neg (by omega)]

theorem gh_minloop_nil_one {fuel : Nat} {net : Net} {cap : Nat} {e : Int} {tl : Bool}
    {w : Nat} (hfuel : 1 ≤ fuel) :
    gh_minloop fuel net [] cap 1 e tl w = ⟨(recvN net cap).1, e, tl, (recvN net cap).2, w⟩ := by
  cases fuel with
  | zero => omega
  | succ fuel =>
    rw [gh_minloop, if_pos (by simp)]
    rcases hr : recvN net cap with ⟨chunk, net1⟩
    simp only [hr]
    by_cases hc : chunk.isEmpty
    · rw [if_pos hc]
      have hc2 : chunk = [] := List.isEmpty_iff.mp hc
      subst hc2
      rfl
    · rw [if_neg hc]
      have hne : chunk ≠ [] := fun hh => hc (by simp [hh])
      have hlen : 1 ≤ chunk.length := List.length_pos.mpr hne
      rw [List.nil_append, gh_minloop_of_ge hlen]

theorem gh_minloop_len_one (fuel : Nat) (net : Net) (body : List Nat) (cap : Nat)
    (e : Int) (tl : Bool) (w : Nat) (hcap : cap ≤ BUFFSIZE) (hbody : body.length ≤ BUFFSIZE) :
    (gh_minloop fuel net body cap 1 e tl w).body.length ≤ BUFFSIZE := by
  by_cases hb : body = []
  · subst hb
    cases fuel with
    | zero => simp [gh_minloop, BUFFSIZE]
    | succ fuel =>
      rw [gh_minloop_nil_one (by omega)]
      exact le_trans (recvN_fst_length_le net cap) hcap
  · rw [gh_minloop_of_ge (List.length_pos.mpr hb)]
    exact hbody

theorem gh_loop_body_le (fuel : Nat) :
    ∀ (net : Net) (acc : List Nat) (idx bl : Nat) (e0 maxS : Int) (w : Nat),
    acc.length = idx + bl → 1 ≤ bl → bl ≤ 512 →
    findSub CRLF2 (cstr (acc.take idx)) = none →
    (gh_loop fuel net acc idx bl e0 maxS 1 w).body.length ≤ BUFFSIZE := by
  induction fuel with
  | zero =>
    intro net acc idx bl e0 maxS w _ _ _ _
    simp [gh_loop, BUFFSIZE]
  | succ fuel ih =>
    intro net acc idx bl e0 maxS w hacc hbl1 hbl5 hP
    rw [gh_loop]
    cases hfind : findSub CRLF2 (cstr acc) with
    | some d =>
      dsimp only
      have hocc := ((findSub_eq_some_iff CRLF2_ne).mp hfind).1
      have hd4 : idx < d + 4 := by
        by_contra hcon
        push_neg at hcon
        have hlen4 : d + CRLF2.length ≤ idx := by rw [CRLF2_len]; omega
        have h1 : occursAt CRLF2 ((cstr acc).take idx) d := (occursAt_take hlen4).mpr hocc
        rw [← cstr_take] at h1
        exact findSub_ne_none CRLF2_ne h1 hP
      have hb0 : ((acc.take (idx + bl)).drop (d + 4)).length ≤ BUFFSIZE := by
        simp only [List.length_drop, List.length_take]
        have : BUFFSIZE = 4096 := rfl
        omega
      have hcap : BUFFSIZE - idx ≤ BUFFSIZE := Nat.sub_le _ _
      cases hcl : clParse ((cstr acc).take d) with
      | some v =>
        dsimp only
        by_cases hbig : 0 < v ∧ maxS < v
        · rw [if_pos hbig]
          simp [BUFFSIZE]
        · rw [if_neg hbig]
          exact gh_minloop_len_one _ _ _ _ _ _ _ hcap hb0
      | none =>
        dsimp only
        exact gh_minloop_len_one _ _ _ _ _ _ _ hcap hb0
    | none =>
      dsimp only
      by_cases hbl512 : 512 ≤ bl
      · rw [if_pos hbl512]
        simp [BUFFSIZE]
      · rw [if_neg hbl512]
        rcases hr : recvN net (512 - bl) with ⟨chunk, net1⟩
        simp only [hr]
        by_cases hc : chunk.isEmpty
        · rw [if_pos hc]
          simp [BUFFSIZE]
        · rw [if_neg hc]
          have hne : chunk ≠ [] := fun hh => hc (by simp [hh])
          have htk : (acc ++ chunk).take (idx + bl) = acc := by
            rw [← hacc, List.take_append_eq_append_take]
            simp
          apply ih
          · simp [hacc]
          · exact List.length_pos.mpr hne
          · have h2 := recvN_fst_length_le net (512 - bl)
            rw [hr] at h2
            simp only at h2
            omega
          · rw [htk]
            exact hfind

theorem get_header_body_le (net : Net) (e0 maxS : Int) :
    (get_header net e0 maxS 1).body.length ≤ BUFFSIZE := by
  rw [get_header]
  rcases hr : recvN net 512 with ⟨chunk, net1⟩
  simp only [hr]
  by_cases hc : chunk.isEmpty
  · rw [if_pos hc]
    simp [BUFFSIZE]
  · rw [if_neg hc]
    have hne : chunk ≠ [] := fun hh => hc (by simp [hh])
    apply gh_loop_body_le
    · simp
    · exact List.length_pos.mpr hne
    · have h2 := recvN_fst_length_le net 512
      rw [hr] at h2
      simpa using h2
    · simp [cstr]
      decide

theorem findSub_take_lt {pat : List Nat} (hpat : pat ≠ []) {E : List Nat} {m d n : Nat}
    (hd : findSub pat (E.take m) = some d) (hn : n < d + pat.length) :
    findSub pat (E.take n) = none := by
  obtain ⟨hocc, hmin⟩ := (findSub_eq_some_iff hpat).mp hd
  have hdm : d + pat.length ≤ m := by
    have h1 := occursAt_length hpat hocc
    simp only [List.length_take] at h1
    have h2 := min_le_left m E.length
    omega
  rw [findSub_eq_none_iff hpat]
  intro j hj
  have hjlen : j + pat.length ≤ n := by
    have h1 := occursAt_length hpat hj
    simp only [List.length_take] at h1
    have h2 := min_le_left n E.length
    omega
  have hjE : occursAt pat E j := (occursAt_take hjlen).mp hj
  have hjm : occursAt pat (E.take m) j := (occursAt_take (by omega)).mpr hjE
  exact hmin j (by omega) hjm

theorem findSub_take_ge {pat : List Nat} (hpat : pat ≠ []) {E : List Nat} {m d n : Nat}
    (hd : findSub pat (E.take m) = some d) (hn : d + pat.length ≤ n) :
    findSub pat (E.take n) = some d := by
  obtain ⟨hocc, hmin⟩ := (findSub_eq_some_iff hpat).mp hd
  have hdm : d + pat.length ≤ m := by
    have h1 := occursAt_length hpat hocc
    simp only [List.length_take] at h1
    have h2 := min_le_left m E.length
    omega
  have hoccE : occursAt pat E d := (occursAt_take hdm).mp hocc
  rw [findSub_eq_some_iff hpat]
  refine ⟨(occursAt_take hn).mpr hoccE, ?_⟩
  intro j hj hjocc
  have hjlen : j + pat.length ≤ n := by
    have h1 := occursAt_length hpat hjocc
    simp only [List.length_take] at h1
    have h2 := min_le_left n E.length
    omega
  have hjE : occursAt pat E j := (occursAt_take hjlen).mp hjocc
  have hjm : occursAt pat (E.take m) j := (occursAt_take (by omega)).mpr hjE
  exact hmin j hj hjm

/-- Whether the header text `H` makes `get_header` take the
`Image length bigger than partition size` early return. -/
def ghTLb (H : List Nat) (maxS : Int) : Bool :=
  match clParse H with
  | some v => decide (0 < v ∧ maxS < v)
  | none => false

/-- The `*expect_len` value after parsing header text `H` (entry value `e0`
when no `Content-Length` line is parsed). -/
def ghExpect (H : List Nat) (e0 : Int) : Int :=
  match clParse H with
  | some v => v
  | none => e0

theorem take_drop_append (D : List Nat) {m n : Nat} (hmn : m ≤ n) (hn : n ≤ D.length) :
    (D.take n).drop m ++ D.drop n = D.drop m := by
  conv_rhs => rw [← List.take_append_drop n D]
  rw [List.drop_append_eq_append_drop]
  have h1 : (D.take n).length = n := by
    simp only [List.length_take]
    omega
  rw [h1]
  have h2 : m - n = 0 := by omega
  rw [h2, List.drop_zero]

theorem gh_found_minloop (D : List Nat) (sched : List Nat) (n idx d : Nat) (v : Int)
    (w : Nat) (hd4n : d + 4 ≤ n) (hn : n ≤ D.length) (hidx : idx ≤ 511)
    (_hD4 : d + 4 ≤ D.length) :
    ((gh_minloop ((D.drop n).length + 1) ⟨D.drop n, sched⟩ ((D.take n).drop (d + 4))
        (BUFFSIZE - idx) 1 v false w).body
      ++ (gh_minloop ((D.drop n).length + 1) ⟨D.drop n, sched⟩ ((D.take n).drop (d + 4))
        (BUFFSIZE - idx) 1 v false w).net.data = D.drop (d + 4)) ∧
    ((gh_minloop ((D.drop n).length + 1) ⟨D.drop n, sched⟩ ((D.take n).drop (d + 4))
        (BUFFSIZE - idx) 1 v false w).body = [] ↔ D.length = d + 4) ∧
    (gh_minloop ((D.drop n).length + 1) ⟨D.drop n, sched⟩ ((D.take n).drop (d + 4))
        (BUFFSIZE - idx) 1 v false w).expect = v ∧
    (gh_minloop ((D.drop n).length + 1) ⟨D.drop n, sched⟩ ((D.take n).drop (d + 4))
        (BUFFSIZE - idx) 1 v false w).tooLarge = false := by
  have hlen0 : ((D.take n).drop (d + 4)).length = n - (d + 4) := by
    simp only [List.length_drop, List.length_take]
    omega
  by_cases hb : (D.take n).drop (d + 4) = []
  · have hnd : n = d + 4 := by
      have := congrArg List.length hb
      rw [hlen0] at this
      simp at this
      omega
    rw [hb, gh_minloop_nil_one (by omega)]
    have hcap : BUFFSIZE - idx ≠ 0 := by
      have : BUFFSIZE = 4096 := rfl
      omega
    refine ⟨?_, ?_, rfl, rfl⟩
    · rw [recvN_fst_append]
      simp [hnd]
    · rw [recvN_fst_nil_iff _ hcap]
      simp only [← hnd]
      rw [List.drop_eq_nil_iff]
      omega
  · have h1 : 1 ≤ ((D.take n).drop (d + 4)).length := List.length_pos.mpr hb
    rw [gh_minloop_of_ge h1]
    refine ⟨?_, ?_, rfl, rfl⟩
    · exact take_drop_append D (by omega) hn
    · constructor
      · intro hc; exact absurd hc hb
      · intro hc
        exfalso
        have : n = d + 4 := by omega
        rw [this] at hlen0
        have : ((D.take (d + 4)).drop (d + 4)).length = 0 := by omega
        exact hb (by subst ‹n = d + 4›; exact List.length_eq_zero.mp this)

theorem gh_loop_found (fuel : Nat) :
    ∀ (sched : List Nat) (D : List Nat) (idx bl : Nat) (e0 maxS : Int) (w : Nat) (d : Nat),
    idx + bl ≤ D.length → 1 ≤ bl → bl ≤ 512 →
    D.length - (idx + bl) + 1 ≤ fuel →
    findSub CRLF2 (cstr (D.take 512)) = some d →
    d + 4 ≤ 512 →
    idx < d + 4 →
    ((gh_loop fuel ⟨D.drop (idx + bl), sched⟩ (D.take (idx + bl)) idx bl e0 maxS 1 w).tooLarge
        = ghTLb (D.take d) maxS ∧
      (gh_loop fuel ⟨D.drop (idx + bl), sched⟩ (D.take (idx + bl)) idx bl e0 maxS 1 w).expect
        = ghExpect (D.take d) e0 ∧
      (ghTLb (D.take d) maxS = true →
        (gh_loop fuel ⟨D.drop (idx + bl), sched⟩ (D.take (idx + bl)) idx bl e0 maxS 1 w).body
          = []) ∧
      (ghTLb (D.take d) maxS = false →
        ((gh_loop fuel ⟨D.drop (idx + bl), sched⟩ (D.take (idx + bl)) idx bl e0 maxS 1 w).body
            ++ (gh_loop fuel ⟨D.drop (idx + bl), sched⟩
                  (D.take (idx + bl)) idx bl e0 maxS 1 w).net.data
          = D.drop (d + 4)) ∧
        ((gh_loop fuel ⟨D.drop (idx + bl), sched⟩ (D.take (idx + bl)) idx bl e0 maxS 1 w).body
            = [] ↔ D.length = d + 4))) := by
  induction fuel with
  | zero =>
    intro sched D idx bl e0 maxS w d hn hbl1 hbl5 hfuel hd hreach hidx
    omega
  | succ fuel ih =>
    intro sched D idx bl e0 maxS w d hn hbl1 hbl5 hfuel hd hreach hidx
    rw [cstr_take] at hd
    have hE4 : d + 4 ≤ (cstr D).length := by
      have h1 := occursAt_length CRLF2_ne ((findSub_eq_some_iff CRLF2_ne).mp hd).1
      rw [CRLF2_len] at h1
      simp only [List.length_take] at h1
      have h2 := min_le_right 512 (cstr D).length
      omega
    have hD4 : d + 4 ≤ D.length := le_trans hE4 (cstr_length_le D)
    have hacl : cstr (D.take (idx + bl)) = (cstr D).take (idx + bl) := cstr_take D _
    by_cases hna : idx + bl < d + 4
    · -- delimiter not yet accumulated: the loop reads on
      have hfind : findSub CRLF2 (cstr (D.take (idx + bl))) = none := by
        rw [hacl]
        exact findSub_take_lt CRLF2_ne hd (by rw [CRLF2_len]; omega)
      rw [gh_loop, hfind]
      dsimp only
      rw [if_neg (by omega)]
      rcases hr : recvN ⟨D.drop (idx + bl), sched⟩ (512 - bl) with ⟨chunk, net1⟩
      simp only [hr]
      have hdata : D.drop (idx + bl) ≠ [] := by
        rw [ne_eq, List.drop_eq_nil_iff]
        omega
      have hchunk : chunk ≠ [] := by
        intro hc
        have h2 := (@recvN_fst_nil_iff ⟨D.drop (idx + bl), sched⟩
          (512 - bl) (by omega)).mp
        rw [hr] at h2
        exact hdata (h2 hc)
      rw [if_neg (by simpa [List.isEmpty_iff] using hchunk)]
      have hck : chunk = (D.drop (idx + bl)).take chunk.length := by
        have h2 := recvN_fst_take ⟨D.drop (idx + bl), sched⟩ (512 - bl)
        rw [hr] at h2
        exact h2
      have hklen : chunk.length ≤ D.length - (idx + bl) := by
        have h2 := congrArg List.length hck
        simp only [List.length_take, List.length_drop] at h2
        omega
      have hk512 : chunk.length ≤ 512 := by
        have h2 := recvN_fst_length_le ⟨D.drop (idx + bl), sched⟩ (512 - bl)
        rw [hr] at h2
        simp only at h2
        omega
      have hacc2 : D.take (idx + bl) ++ chunk = D.take (idx + bl + chunk.length) := by
        conv_rhs => rw [List.take_add, ← hck]
      have hnet1 : net1 = ⟨D.drop (idx + bl + chunk.length), net1.sched⟩ := by
        have h2 := recvN_snd_data ⟨D.drop (idx + bl), sched⟩ (512 - bl)
        rw [hr] at h2
        simp only at h2
        rw [List.drop_drop] at h2
        cases net1
        simp only at h2
        simp only [h2]
      rw [hacc2, hnet1]
      have hk1 : 1 ≤ chunk.length := List.length_pos.mpr hchunk
      have := ih net1.sched D (idx + bl) chunk.length e0 maxS (max w (idx + bl)) d
        (by omega) hk1 hk512 (by omega) (by rw [cstr_take]; exact hd) hreach hna
      exact this
    · -- the delimiter is inside the accumulated text: header found now
      push_neg at hna
      have hfind : findSub CRLF2 (cstr (D.take (idx + bl))) = some d := by
        rw [hacl]
        exact findSub_take_ge CRLF2_ne hd (by rw [CRLF2_len]; omega)
      rw [gh_loop, hfind]
      dsimp only
      have hH : (cstr (D.take (idx + bl))).take d = D.take d := by
        rw [hacl, List.take_take, min_eq_left (by omega)]
        exact cstr_eq_take_of_le D (by omega)
      have htt : (D.take (idx + bl)).take (idx + bl) = D.take (idx + bl) := by
        rw [List.take_take, min_self]
      rw [hH, htt]
      have hml := gh_found_minloop D sched (idx + bl) idx d
      cases hcl : clParse (D.take d) with
      | some v =>
        dsimp only
        by_cases hbig : 0 < v ∧ maxS < v
        · rw [if_pos hbig]
          have hTL : ghTLb (D.take d) maxS = true := by
            rw [ghTLb, hcl]
            simpa using hbig
          refine ⟨by rw [hTL], by rw [ghExpect, hcl], fun _ => rfl, fun hc => ?_⟩
          rw [hTL] at hc
          cases hc
        · rw [if_neg hbig]
          have hTL : ghTLb (D.take d) maxS = false := by
            rw [ghTLb, hcl]
            simpa using hbig
          obtain ⟨hm1, hm2, hm3, hm4⟩ := hml v (max w (idx + bl)) hna hn (by omega) hD4
          refine ⟨by rw [hm4, hTL], by rw [hm3, ghExpect, hcl], fun hc => ?_, fun _ => ⟨hm1, hm2⟩⟩
          rw [hTL] at hc
          cases hc
      | none =>
        dsimp only
        have hTL : ghTLb (D.take d) maxS = false := by
          rw [ghTLb, hcl]
        obtain ⟨hm1, hm2, hm3, hm4⟩ := hml e0 (max w (idx + bl)) hna hn (by omega) hD4
        refine ⟨by rw [hm4, hTL], by rw [hm3, ghExpect, hcl], fun hc => ?_, fun _ => ⟨hm1, hm2⟩⟩
        rw [hTL] at hc
        cases hc

theorem get_header_found (D sched : List Nat) (e0 maxS : Int) (d : Nat)
    (hd : findSub CRLF2 (cstr (D.take 512)) = some d) (hreach : d + 4 ≤ 512) :
    (get_header ⟨D, sched⟩ e0 maxS 1).tooLarge = ghTLb (D.take d) maxS ∧
    (get_header ⟨D, sched⟩ e0 maxS 1).expect = ghExpect (D.take d) e0 ∧
    (ghTLb (D.take d) maxS = true → (get_header ⟨D, sched⟩ e0 maxS 1).body = []) ∧
    (ghTLb (D.take d) maxS = false →
      ((get_header ⟨D, sched⟩ e0 maxS 1).body ++ (get_header ⟨D, sched⟩ e0 maxS 1).net.data
        = D.drop (d + 4)) ∧
      ((get_header ⟨D, sched⟩ e0 maxS 1).body = [] ↔ D.length = d + 4)) := by
  have hD4 : d + 4 ≤ D.length := by
    rw [cstr_take] at hd
    have h1 := occursAt_length CRLF2_ne ((findSub_eq_some_iff CRLF2_ne).mp hd).1
    rw [CRLF2_len] at h1
    simp only [List.length_take] at h1
    have h2 := min_le_right 512 (cstr D).length
    have h3 := cstr_length_le D
    omega
  rw [get_header]
  rcases hr : recvN ⟨D, sched⟩ 512 with ⟨chunk, net1⟩
  have hdata : D ≠ [] := by
    intro hc
    subst hc
    simp at hD4
  have hchunk : chunk ≠ [] := by
    intro hc
    have h2 := (@recvN_fst_nil_iff ⟨D, sched⟩ 512 (by omega)).mp
    rw [hr] at h2
    exact hdata (h2 hc)
  simp only [hr]
  rw [if_neg (by simpa [List.isEmpty_iff] using hchunk)]
  have hck : chunk = D.take chunk.length := by
    have h2 := recvN_fst_take ⟨D, sched⟩ 512
    rw [hr] at h2
    exact h2
  have hnet1 : net1 = ⟨D.drop chunk.length, net1.sched⟩ := by
    have h2 := recvN_snd_data ⟨D, sched⟩ 512
    rw [hr] at h2
    simp only at h2
    cases net1
    simp only at h2
    simp only [h2]
  have hklen : chunk.length ≤ D.length := by
    have h2 := congrArg List.length hck
    simp only [List.length_take] at h2
    omega
  have hk512 : chunk.length ≤ 512 := by
    have h2 := recvN_fst_length_le ⟨D, sched⟩ 512
    rw [hr] at h2
    exact h2
  have hk1 : 1 ≤ chunk.length := List.length_pos.mpr hchunk
  have h := gh_loop_found (net1.data.length + 1) net1.sched D 0 chunk.length e0 maxS 0 d
    (by omega) hk1 hk512 (by rw [hnet1]; simp) hd hreach (by omega)
  simp only [Nat.zero_add] at h
  rw [hnet1] at h ⊢
  rw [← hck] at h
  exact h

/-! ## Lemmas: the transfer loops -/

theorem writeSum_nil : writeSum [] = 0 := rfl

theorem writeSum_cons (e : Ev) (t : List Ev) :
    writeSum (e :: t) = (match e with | Ev.otaWrite c => c.length | _ => 0) + writeSum t := by
  cases e <;> simp [writeSum]

theorem writeSum_append (a b : List Ev) : writeSum (a ++ b) = writeSum a + writeSum b := by
  induction a with
  | nil => simp [writeSum_nil]
  | cons e t ih =>
    rw [List.cons_append, writeSum_cons, writeSum_cons, ih]
    omega

theorem writeSum_write (evs : List Ev) (c : List Nat) :
    writeSum (evs ++ [Ev.otaWrite c]) = writeSum evs + c.length := by
  rw [writeSum_append, writeSum_cons, writeSum_nil]
  dsimp only
  omega

theorem ota_loop_writeSum (fuel : Nat) :
    ∀ (net : Net) (buf : List Nat) (expect : Int) (cap : Nat) (wOk : Bool) (w : Nat)
      (bytes : List Nat) (evs : List Ev),
    writeSum evs = w → w + buf.length ≤ cap →
    writeSum (ota_transfer_loop fuel net buf expect cap wOk w bytes evs).evs ≤ cap ∧
    (ota_transfer_loop fuel net buf expect cap wOk w bytes evs).written ≤ cap := by
  induction fuel with
  | zero =>
    intro net buf expect cap wOk w bytes evs hw hcap
    rw [ota_transfer_loop]
    dsimp only
    exact ⟨by rw [hw]; omega, by omega⟩
  | succ fuel ih =>
    intro net buf expect cap wOk w bytes evs hw hcap
    rw [ota_transfer_loop]
    by_cases hb : buf.isEmpty
    · rw [if_pos hb]
      dsimp only
      exact ⟨by rw [hw]; omega, by omega⟩
    · rw [if_neg hb]
      cases wOk with
      | false =>
        rw [if_pos (show (!false) = true from rfl)]
        dsimp only
        exact ⟨by rw [writeSum_write, hw]; omega, by omega⟩
      | true =>
        rw [if_neg (show ¬((!true) = true) from by decide)]
        rcases hr : recvN net BUFFSIZE with ⟨chunk, net1⟩
        simp only [hr]
        by_cases hex : 0 < expect ∧ ((w + buf.length + chunk.length : Nat) : Int) > expect
        · rw [if_pos hex]
          dsimp only
          exact ⟨by rw [writeSum_write, hw]; omega, by omega⟩
        · rw [if_neg hex]
          by_cases hcp : cap < w + buf.length + chunk.length
          · rw [if_pos hcp]
            dsimp only
            exact ⟨by rw [writeSum_write, hw]; omega, by omega⟩
          · rw [if_neg hcp]
            exact ih net1 chunk expect cap true (w + buf.length) (bytes ++ buf)
              (evs ++ [Ev.otaWrite buf]) (by rw [writeSum_write, hw]) (by omega)

theorem ota_loop_setBoot (fuel : Nat) :
    ∀ (net : Net) (buf : List Nat) (expect : Int) (cap : Nat) (wOk : Bool) (w : Nat)
      (bytes : List Nat) (evs : List Ev) (q : Partition),
    Ev.setBoot q ∈ (ota_transfer_loop fuel net buf expect cap wOk w bytes evs).evs →
    Ev.setBoot q ∈ evs := by
  induction fuel with
  | zero =>
    intro net buf expect cap wOk w bytes evs q h
    rw [ota_transfer_loop] at h
    exact h
  | succ fuel ih =>
    intro net buf expect cap wOk w bytes evs q h
    rw [ota_transfer_loop] at h
    by_cases hb : buf.isEmpty
    · rw [if_pos hb] at h
      exact h
    · rw [if_neg hb] at h
      have hstep : Ev.setBoot q ∈ evs ++ [Ev.otaWrite buf] → Ev.setBoot q ∈ evs := by
        intro h2
        rcases List.mem_append.mp h2 with h3 | h3
        · exact h3
        · simp at h3
      cases wOk with
      | false =>
        rw [if_pos (show (!false) = true from rfl)] at h
        dsimp only at h
        exact hstep h
      | true =>
        rw [if_neg (show ¬((!true) = true) from by decide)] at h
        rcases hr : recvN net BUFFSIZE with ⟨chunk, net1⟩
        rw [hr] at h
        simp only at h
        by_cases hex : 0 < expect ∧ ((w + buf.length + chunk.length : Nat) : Int) > expect
        · rw [if_pos hex] at h
          dsimp only at h
          exact hstep h
        · rw [if_neg hex] at h
          by_cases hcp : cap < w + buf.length + chunk.length
          · rw [if_pos hcp] at h
            dsimp only at h
            exact hstep h
          · rw [if_neg hcp] at h
            exact hstep (ih net1 chunk expect cap true (w + buf.length) (bytes ++ buf)
              (evs ++ [Ev.otaWrite buf]) q h)

theorem ota_loop_complete (fuel : Nat) :
    ∀ (net : Net) (buf : List Nat) (expect : Int) (cap : Nat) (w : Nat) (bytes : List Nat)
      (evs : List Ev),
    net.data.length + 2 ≤ fuel →
    (buf = [] → net.data = []) →
    (expect ≤ 0 ∨ ((w + buf.length + net.data.length : Nat) : Int) ≤ expect) →
    w + buf.length + net.data.length ≤ cap →
    (ota_transfer_loop fuel net buf expect cap true w bytes evs).aborted = none ∧
    (ota_transfer_loop fuel net buf expect cap true w bytes evs).written
      = w + buf.length + net.data.length ∧
    (ota_transfer_loop fuel net buf expect cap true w bytes evs).bytes
      = bytes ++ buf ++ net.data := by
  induction fuel with
  | zero =>
    intro net buf expect cap w bytes evs hfuel hbuf hexp hcap
    omega
  | succ fuel ih =>
    intro net buf expect cap w bytes evs hfuel hbuf hexp hcap
    rw [ota_transfer_loop]
    by_cases hb : buf.isEmpty
    · have hbe : buf = [] := List.isEmpty_iff.mp hb
      have hde : net.data = [] := hbuf hbe
      rw [if_pos hb]
      refine ⟨rfl, ?_, ?_⟩
      · simp [hbe, hde]
      · simp [hbe, hde]
    · rw [if_neg hb]
      rw [if_neg (show ¬((!true) = true) from by decide)]
      rcases hr : recvN net BUFFSIZE with ⟨chunk, net1⟩
      simp only [hr]
      have happ : chunk ++ net1.data = net.data := by
        have h2 := recvN_fst_append net BUFFSIZE
        rw [hr] at h2
        exact h2
      have hlen : chunk.length + net1.data.length = net.data.length := by
        have h2 := congrArg List.length happ
        simpa using h2
      have hex : ¬ (0 < expect ∧ ((w + buf.length + chunk.length : Nat) : Int) > expect) := by
        rcases hexp with h2 | h2
        · omega
        · omega
      rw [if_neg hex]
      rw [if_neg (by omega)]
      by_cases hce : chunk = []
      · have hde : net.data = [] := by
          have h2 := (@recvN_fst_nil_iff net BUFFSIZE (by decide)).mp
          rw [hr] at h2
          exact h2 hce
        have hne : net1 = net := by
          have h2 : recvN net BUFFSIZE = ([], net) := by
            unfold recvN
            rw [if_pos (by simp [hde])]
          rw [hr] at h2
          exact ((Prod.mk.injEq _ _ _ _).mp h2).2
        cases fuel with
        | zero => omega
        | succ fuel2 =>
          rw [ota_transfer_loop]
          rw [if_pos (by simp [hce])]
          refine ⟨rfl, ?_, ?_⟩
          · dsimp only
            simp [hce, hde]
          · dsimp only
            simp [hce, hde, hne]
      · have hk1 : 1 ≤ chunk.length := List.length_pos.mpr hce
        obtain ⟨ha, hwr, hby⟩ := ih net1 chunk expect cap (w + buf.length) (bytes ++ buf)
          (evs ++ [Ev.otaWrite buf]) (by omega) (fun h2 => absurd h2 hce)
          (by rcases hexp with h2 | h2
              · exact Or.inl h2
              · right
                omega)
          (by omega)
        refine ⟨ha, ?_, ?_⟩
        · rw [hwr]
          omega
        · rw [hby]
          rw [List.append_assoc (bytes ++ buf), happ, List.append_assoc]

theorem file_loop_writeSum (fuel : Nat) :
    ∀ (rest : List Nat) (buf : List Nat) (expect : Int) (cap : Nat) (wOk : Bool) (w : Nat)
      (rem : Int) (bytes : List Nat) (evs : List Ev),
    writeSum evs = w → w + buf.length ≤ cap →
    writeSum (file_loop fuel rest buf expect cap wOk w rem bytes evs).evs ≤ cap ∧
    (file_loop fuel rest buf expect cap wOk w rem bytes evs).written ≤ cap := by
  induction fuel with
  | zero =>
    intro rest buf expect cap wOk w rem bytes evs hw hcap
    rw [file_loop]
    dsimp only
    exact ⟨by rw [hw]; omega, by omega⟩
  | succ fuel ih =>
    intro rest buf expect cap wOk w rem bytes evs hw hcap
    rw [file_loop]
    by_cases hb : buf.isEmpty
    · rw [if_pos hb]
      dsimp only
      exact ⟨by rw [hw]; omega, by omega⟩
    · rw [if_neg hb]
      cases wOk with
      | false =>
        rw [if_pos (show (!false) = true from rfl)]
        dsimp only
        exact ⟨by rw [writeSum_write, hw]; omega, by omega⟩
      | true =>
        rw [if_neg (show ¬((!true) = true) from by decide)]
        by_cases hrem : rem - (buf.length : Nat) ≤ 0
        · rw [if_pos hrem]
          dsimp only
          exact ⟨by rw [writeSum_write, hw]; omega, by omega⟩
        · rw [if_neg hrem]
          by_cases hex : ((w + buf.length + (rest.take BUFFSIZE).length : Nat) : Int) > expect
          · rw [if_pos hex]
            dsimp only
            exact ⟨by rw [writeSum_write, hw]; omega, by omega⟩
          · rw [if_neg hex]
            by_cases hcp : cap < w + buf.length + (rest.take BUFFSIZE).length
            · rw [if_pos hcp]
              dsimp only
              exact ⟨by rw [writeSum_write, hw]; omega, by omega⟩
            · rw [if_neg hcp]
              exact ih (rest.drop BUFFSIZE) (rest.take BUFFSIZE) expect cap true
                (w + buf.length) (rem - (buf.length : Nat)) (bytes ++ buf)
                (evs ++ [Ev.otaWrite buf]) (by rw [writeSum_write, hw]) (by omega)

theorem file_loop_setBoot (fuel : Nat) :
    ∀ (rest : List Nat) (buf : List Nat) (expect : Int) (cap : Nat) (wOk : Bool) (w : Nat)
      (rem : Int) (bytes : List Nat) (evs : List Ev) (q : Partition),
    Ev.setBoot q ∈ (file_loop fuel rest buf expect cap wOk w rem bytes evs).evs →
    Ev.setBoot q ∈ evs := by
  induction fuel with
  | zero =>
    intro rest buf expect cap wOk w rem bytes evs q h
    rw [file_loop] at h
    exact h
  | succ fuel ih =>
    intro rest buf expect cap wOk w rem bytes evs q h
    rw [file_loop] at h
    by_cases hb : buf.isEmpty
    · rw [if_pos hb] at h
      exact h
    · rw [if_neg hb] at h
      have hstep : Ev.setBoot q ∈ evs ++ [Ev.otaWrite buf] → Ev.setBoot q ∈ evs := by
        intro h2
        rcases List.mem_append.mp h2 with h3 | h3
        · exact h3
        · simp at h3
      cases wOk with
      | false =>
        rw [if_pos (show (!false) = true from rfl)] at h
        dsimp only at h
        exact hstep h
      | true =>
        rw [if_neg (show ¬((!true) = true) from by decide)] at h
        by_cases hrem : rem - (buf.length : Nat) ≤ 0
        · rw [if_pos hrem] at h
          dsimp only at h
          exact hstep h
        · rw [if_neg hrem] at h
          by_cases hex : ((w + buf.length + (rest.take BUFFSIZE).length : Nat) : Int) > expect
          · rw [if_pos hex] at h
            dsimp only at h
            exact hstep h
          · rw [if_neg hex] at h
            by_cases hcp : cap < w + buf.length + (rest.take BUFFSIZE).length
            · rw [if_pos hcp] at h
              dsimp only at h
              exact hstep h
            · rw [if_neg hcp] at h
              exact hstep (ih (rest.drop BUFFSIZE) (rest.take BUFFSIZE) expect cap true
                (w + buf.length) (rem - (buf.length : Nat)) (bytes ++ buf)
                (evs ++ [Ev.otaWrite buf]) q h)

/-! ## Lemmas: stages and branch structure -/

theorem failRun_ok (r : Reason) (evs : List Ev) (tgt : Option Partition) (e : Int)
    (rm : List Nat) : (failRun r evs tgt e rm).ok = false := rfl

theorem failRun_events (r : Reason) (evs : List Ev) (tgt : Option Partition) (e : Int)
    (rm : List Nat) : (failRun r evs tgt e rm).events = evs := rfl

theorem failRun_written (r : Reason) (evs : List Ev) (tgt : Option Partition) (e : Int)
    (rm : List Nat) : (failRun r evs tgt e rm).written = 0 := rfl

theorem failRun_remote (r : Reason) (evs : List Ev) (tgt : Option Partition) (e : Int)
    (rm : List Nat) : (failRun r evs tgt e rm).remoteMd5 = rm := rfl

theorem failRun_target (r : Reason) (evs : List Ev) (tgt : Option Partition) (e : Int)
    (rm : List Nat) : (failRun r evs tgt e rm).target = tgt := rfl

theorem failRun_reason (r : Reason) (evs : List Ev) (tgt : Option Partition) (e : Int)
    (rm : List Nat) : (failRun r evs tgt e rm).reason = r := rfl

theorem failRun_compared (r : Reason) (evs : List Ev) (tgt : Option Partition) (e : Int)
    (rm : List Nat) : (failRun r evs tgt e rm).digestCompared = false := rfl

theorem find_first_label {table : List Partition} {ty sub : Nat} {label : String}
    {p : Partition} (h : esp_partition_find_first table ty sub label = some p) :
    p.ptype = ty ∧ p.subtype = sub ∧ p.label = label := by
  unfold esp_partition_find_first at h
  have h2 := List.find?_some h
  simp only [Bool.and_eq_true, beq_iff_eq] at h2
  exact ⟨h2.1.1, h2.1.2, h2.2⟩

theorem update_cases (env : NetEnv) (md5fn : List Nat → List Nat) (md5F ff : Bool) :
    (∃ e, resolveUpd env.table env.running env.nextUpdate ff = .error e ∧
      mpy_ota_update env md5fn md5F ff = failRun e [] none 0 []) ∨
    (∃ upd, resolveUpd env.table env.running env.nextUpdate ff = .ok upd ∧
      ((env.mallocOk = false ∧
         mpy_ota_update env md5fn md5F ff = failRun .mallocFail [] (some upd) 0 []) ∨
       (env.mallocOk = true ∧ env.otaBeginOk = false ∧
         mpy_ota_update env md5fn md5F ff
           = failRun .otaBeginFail [Ev.otaBegin] (some upd) 0 []) ∨
       (env.mallocOk = true ∧ env.otaBeginOk = true ∧
         ∃ e, md5Stage env md5F upd = .error e ∧ mpy_ota_update env md5fn md5F ff = e) ∨
       (env.mallocOk = true ∧ env.otaBeginOk = true ∧
         ∃ remote, md5Stage env md5F upd = .ok remote ∧
           mpy_ota_update env md5fn md5F ff
             = imageStage env md5fn (get_header env.imgNet 0 (upd.size : Int) 1) upd md5F
                 remote))) := by
  unfold mpy_ota_update
  cases hres : resolveUpd env.table env.running env.nextUpdate ff with
  | error e => exact Or.inl ⟨e, rfl, rfl⟩
  | ok upd =>
    right
    refine ⟨upd, rfl, ?_⟩
    dsimp only
    cases hm : env.mallocOk with
    | false =>
      rw [if_pos (show (!false) = true from rfl)]
      exact Or.inl ⟨rfl, rfl⟩
    | true =>
      rw [if_neg (show ¬((!true) = true) from by decide)]
      cases hob : env.otaBeginOk with
      | false =>
        rw [if_pos (show (!false) = true from rfl)]
        exact Or.inr (Or.inl ⟨rfl, rfl, rfl⟩)
      | true =>
        rw [if_neg (show ¬((!true) = true) from by decide)]
        cases hmd : md5Stage env md5F upd with
        | error e => exact Or.inr (Or.inr (Or.inl ⟨rfl, rfl, e, rfl, rfl⟩))
        | ok remote => exact Or.inr (Or.inr (Or.inr ⟨rfl, rfl, remote, rfl, rfl⟩))

theorem md5Stage_error_spec {env : NetEnv} {md5F : Bool} {upd : Partition} {r : RunResult}
    (h : md5Stage env md5F upd = .error r) :
    r.ok = false ∧ r.events = [Ev.otaBegin] ∧ r.written = 0 ∧ r.target = some upd := by
  unfold md5Stage at h
  by_cases h1 : md5F
  · rw [if_neg (by simp [h1])] at h
    by_cases h2 : env.connectOk1
    · rw [if_neg (by simp [h2])] at h
      by_cases h3 : env.sendOk1
      · rw [if_neg (by simp [h3])] at h
        by_cases h4 : ((if 32 ≤ (get_header env.md5Net 0 128 32).body.length then
            cstr ((get_header env.md5Net 0 128 32).body.take 32) else []).length == 32) = true
        · rw [if_pos h4] at h
          cases h
        · rw [if_neg h4] at h
          injection h with h5
          subst h5
          exact ⟨rfl, rfl, rfl, rfl⟩
      · rw [if_pos (by simp [h3])] at h
        injection h with h5
        subst h5
        exact ⟨rfl, rfl, rfl, rfl⟩
    · rw [if_pos (by simp [h2])] at h
      injection h with h5
      subst h5
      exact ⟨rfl, rfl, rfl, rfl⟩
  · rw [if_pos (by simp [h1])] at h
    cases h

theorem md5Stage_ok_spec {env : NetEnv} {md5F : Bool} {upd : Partition} {remote : List Nat}
    (h : md5Stage env md5F upd = .ok remote) :
    (md5F = true → remote.length = 32) ∧ (md5F = false → remote = []) := by
  unfold md5Stage at h
  by_cases h1 : md5F
  · rw [if_neg (by simp [h1])] at h
    by_cases h2 : env.connectOk1
    · rw [if_neg (by simp [h2])] at h
      by_cases h3 : env.sendOk1
      · rw [if_neg (by simp [h3])] at h
        by_cases h4 : ((if 32 ≤ (get_header env.md5Net 0 128 32).body.length then
            cstr ((get_header env.md5Net 0 128 32).body.take 32) else []).length == 32) = true
        · rw [if_pos h4] at h
          injection h with h5
          constructor
          · intro h6
            rw [← h5]
            exact Nat.beq_eq_true_eq _ _ |>.mp h4
          · intro h6
            rw [h6] at h1
            cases h1
        · rw [if_neg h4] at h
          cases h
      · rw [if_pos (by simp [h3])] at h
        cases h
    · rw [if_pos (by simp [h2])] at h
      cases h
  · rw [if_pos (by simp [h1])] at h
    injection h with h5
    subst h5
    constructor
    · intro h6
      rw [h6] at h1
      exact absurd rfl h1
    · intro h6
      rfl

theorem imageStage_cases (env : NetEnv) (md5fn : List Nat → List Nat) (gh : GHResult)
    (upd : Partition) (md5F : Bool) (remote : List Nat) :
    (env.connectOk2 = false ∧
      imageStage env md5fn gh upd md5F remote
        = failRun .connectFail [Ev.otaBegin] (some upd) 0 remote) ∨
    (env.connectOk2 = true ∧ env.sendOk2 = false ∧
      imageStage env md5fn gh upd md5F remote
        = failRun .sendFail [Ev.otaBegin] (some upd) 0 remote) ∨
    (env.connectOk2 = true ∧ env.sendOk2 = true ∧ gh.body.length = 0 ∧
      imageStage env md5fn gh upd md5F remote
        = failRun (if gh.tooLarge then .imageTooLarge else .noBody) [Ev.otaBegin] (some upd)
            gh.expect remote) ∨
    (env.connectOk2 = true ∧ env.sendOk2 = true ∧ gh.body.length ≠ 0 ∧
      gh.body.head? ≠ some 233 ∧
      imageStage env md5fn gh upd md5F remote
        = failRun .badMagic [Ev.otaBegin] (some upd) gh.expect remote) ∨
    (env.connectOk2 = true ∧ env.sendOk2 = true ∧ gh.body.length ≠ 0 ∧
      gh.body.head? = some 233 ∧
      imageStage env md5fn gh upd md5F remote
        = postNet upd md5F remote md5fn gh.expect env.otaEndOk env.setBootOk
            (ota_transfer_loop (gh.net.data.length + 2) gh.net gh.body gh.expect upd.size
              env.otaWriteOk 0 [] [Ev.otaBegin])) := by
  unfold imageStage
  by_cases h1 : env.connectOk2
  · rw [if_neg (by simp [h1])]
    by_cases h2 : env.sendOk2
    · rw [if_neg (by simp [h2])]
      by_cases h3 : gh.body.length = 0
      · rw [if_pos h3]
        exact Or.inr (Or.inr (Or.inl ⟨h1, h2, h3, rfl⟩))
      · rw [if_neg h3]
        by_cases h4 : gh.body.head? = some 233
        · rw [if_neg (by simp [h4])]
          exact Or.inr (Or.inr (Or.inr (Or.inr ⟨h1, h2, h3, h4, rfl⟩)))
        · rw [if_pos (by simp [h4])]
          exact Or.inr (Or.inr (Or.inr (Or.inl ⟨h1, h2, h3, h4, rfl⟩)))
    · rw [if_pos (by simp [h2])]
      have h2f : env.sendOk2 = false := by
        cases hs : env.sendOk2
        · rfl
        · exact absurd hs h2
      exact Or.inr (Or.inl ⟨h1, h2f, rfl⟩)
  · rw [if_pos (by simp [h1])]
    have h1f : env.connectOk2 = false := by
      cases hs : env.connectOk2
      · rfl
      · exact absurd hs h1
    exact Or.inl ⟨h1f, rfl⟩

theorem postNet_spec (upd : Partition) (md5F : Bool) (remote : List Nat)
    (md5fn : List Nat → List Nat) (expect : Int) (endOk sbOk : Bool) (lo : LoopOut) :
    (postNet upd md5F remote md5fn expect endOk sbOk lo).remoteMd5 = remote ∧
    (postNet upd md5F remote md5fn expect endOk sbOk lo).bytes = lo.bytes ∧
    (postNet upd md5F remote md5fn expect endOk sbOk lo).written = lo.written ∧
    (postNet upd md5F remote md5fn expect endOk sbOk lo).expect = expect ∧
    writeSum (postNet upd md5F remote md5fn expect endOk sbOk lo).events = writeSum lo.evs ∧
    (∀ q, Ev.setBoot q ∈ (postNet upd md5F remote md5fn expect endOk sbOk lo).events →
      (Ev.setBoot q ∈ lo.evs ∨
       (lo.aborted = none ∧
        ((md5F && remote.length == 32) = true → remote = md5hex (md5fn lo.bytes)) ∧
        (0 < expect → expect = (lo.written : Int))))) ∧
    ((postNet upd md5F remote md5fn expect endOk sbOk lo).ok = true →
      (lo.aborted = none ∧ (0 < expect → expect = (lo.written : Int)) ∧
       ((md5F && remote.length == 32) = true → remote = md5hex (md5fn lo.bytes)))) := by
  unfold postNet
  cases ha : lo.aborted with
  | some r =>
    dsimp only
    refine ⟨rfl, rfl, rfl, rfl, rfl, ?_, ?_⟩
    · intro q h
      exact Or.inl h
    · intro h
      cases h
  | none =>
    dsimp only
    by_cases hlen : 0 < expect ∧ expect ≠ (lo.written : Int)
    · rw [if_pos hlen]
      refine ⟨rfl, rfl, rfl, rfl, rfl, ?_, ?_⟩
      · intro q h
        exact Or.inl h
      · intro h
        cases h
    · rw [if_neg hlen]
      have hlen2 : 0 < expect → expect = (lo.written : Int) := by
        intro h2
        by_contra h3
        exact hlen ⟨h2, h3⟩
      by_cases hmd : ((md5F && remote.length == 32) && remote ≠ md5hex (md5fn lo.bytes)) = true
      · rw [if_pos hmd]
        refine ⟨rfl, rfl, rfl, rfl, rfl, ?_, ?_⟩
        · intro q h
          exact Or.inl h
        · intro h
          cases h
      · rw [if_neg hmd]
        have hmd2 : (md5F && remote.length == 32) = true → remote = md5hex (md5fn lo.bytes) := by
          intro h2
          by_contra h3
          exact hmd (by simp [h2, h3])
        cases hend : endOk with
        | false =>
          rw [if_pos (show (!false) = true from rfl)]
          refine ⟨rfl, rfl, rfl, rfl, ?_, ?_, ?_⟩
          · rw [writeSum_append]
            simp [writeSum_cons, writeSum_nil]
          · intro q h
            rcases List.mem_append.mp h with h2 | h2
            · exact Or.inl h2
            · simp at h2
          · intro h
            cases h
        | true =>
          rw [if_neg (show ¬((!true) = true) from by decide)]
          cases hsb : sbOk with
          | false =>
            rw [if_pos (show (!false) = true from rfl)]
            refine ⟨rfl, rfl, rfl, rfl, ?_, ?_, ?_⟩
            · rw [writeSum_append]
              simp [writeSum_cons, writeSum_nil]
            · intro q h
              rcases List.mem_append.mp h with h2 | h2
              · exact Or.inl h2
              · exact Or.inr ⟨rfl, hmd2, hlen2⟩
            · intro h
              cases h
          | true =>
            rw [if_neg (show ¬((!true) = true) from by decide)]
            refine ⟨rfl, rfl, rfl, rfl, ?_, ?_, ?_⟩
            · rw [writeSum_append]
              simp [writeSum_cons, writeSum_nil]
            · intro q h
              rcases List.mem_append.mp h with h2 | h2
              · exact Or.inl h2
              · exact Or.inr ⟨rfl, hmd2, hlen2⟩
            · intro h
              exact ⟨rfl, hlen2, hmd2⟩

theorem postFile_spec (upd : Partition) (fileMd5 : List Nat)
    (md5fn : List Nat → List Nat) (expect : Int) (endOk sbOk : Bool) (lo : LoopOut) :
    (postFile upd fileMd5 md5fn expect endOk sbOk lo).remoteMd5 = fileMd5 ∧
    (postFile upd fileMd5 md5fn expect endOk sbOk lo).bytes = lo.bytes ∧
    (postFile upd fileMd5 md5fn expect endOk sbOk lo).written = lo.written ∧
    (postFile upd fileMd5 md5fn expect endOk sbOk lo).expect = expect ∧
    writeSum (postFile upd fileMd5 md5fn expect endOk sbOk lo).events = writeSum lo.evs ∧
    (∀ q, Ev.setBoot q ∈ (postFile upd fileMd5 md5fn expect endOk sbOk lo).events →
      (Ev.setBoot q ∈ lo.evs ∨
       (lo.aborted = none ∧
        ((fileMd5.length == 32) = true → fileMd5 = md5hex (md5fn lo.bytes)) ∧
        expect = (lo.written : Int)))) ∧
    ((postFile upd fileMd5 md5fn expect endOk sbOk lo).ok = true →
      (lo.aborted = none ∧ expect = (lo.written : Int) ∧
       ((fileMd5.length == 32) = true → fileMd5 = md5hex (md5fn lo.bytes)))) ∧
    (fileMd5.length ≠ 32 →
      (postFile upd fileMd5 md5fn expect endOk sbOk lo).digestCompared = false) := by
  unfold postFile
  cases ha : lo.aborted with
  | some r =>
    dsimp only
    refine ⟨rfl, rfl, rfl, rfl, rfl, ?_, ?_, ?_⟩
    · intro q h
      exact Or.inl h
    · intro h
      cases h
    · intro h
      rfl
  | none =>
    dsimp only
    have hcmp : fileMd5.length ≠ 32 → (fileMd5.length == 32) = false := by
      intro h2
      simpa using h2
    by_cases hlen : expect ≠ (lo.written : Int)
    · rw [if_pos hlen]
      refine ⟨rfl, rfl, rfl, rfl, rfl, ?_, ?_, ?_⟩
      · intro q h
        exact Or.inl h
      · intro h
        cases h
      · intro h
        rfl
    · rw [if_neg hlen]
      push_neg at hlen
      by_cases hmd : ((fileMd5.length == 32) && fileMd5 ≠ md5hex (md5fn lo.bytes)) = true
      · rw [if_pos hmd]
        refine ⟨rfl, rfl, rfl, rfl, rfl, ?_, ?_, ?_⟩
        · intro q h
          exact Or.inl h
        · intro h
          cases h
        · intro h
          simp only
          exact hcmp h
      · rw [if_neg hmd]
        have hmd2 : (fileMd5.length == 32) = true → fileMd5 = md5hex (md5fn lo.bytes) := by
          intro h2
          by_contra h3
          exact hmd (by simp [h2, h3])
        cases hend : endOk with
        | false =>
          rw [if_pos (show (!false) = true from rfl)]
          refine ⟨rfl, rfl, rfl, rfl, ?_, ?_, ?_, ?_⟩
          · rw [writeSum_append]
            simp [writeSum_cons, writeSum_nil]
          · intro q h
            rcases List.mem_append.mp h with h2 | h2
            · exact Or.inl h2
            · simp at h2
          · intro h
            cases h
          · intro h
            simp only
            exact hcmp h
        | true =>
          rw [if_neg (show ¬((!true) = true) from by decide)]
          cases hsb : sbOk with
          | false =>
            rw [if_pos (show (!false) = true from rfl)]
            refine ⟨rfl, rfl, rfl, rfl, ?_, ?_, ?_, ?_⟩
            · rw [writeSum_append]
              simp [writeSum_cons, writeSum_nil]
            · intro q h
              rcases List.mem_append.mp h with h2 | h2
              · exact Or.inl h2
              · exact Or.inr ⟨rfl, hmd2, hlen⟩
            · intro h
              cases h
            · intro h
              simp only
              exact hcmp h
          | true =>
            rw [if_neg (show ¬((!true) = true) from by decide)]
            refine ⟨rfl, rfl, rfl, rfl, ?_, ?_, ?_, ?_⟩
            · rw [writeSum_append]
              simp [writeSum_cons, writeSum_nil]
            · intro q h
              rcases List.mem_append.mp h with h2 | h2
              · exact Or.inl h2
              · exact Or.inr ⟨rfl, hmd2, hlen⟩
            · intro h
              exact ⟨rfl, hlen, hmd2⟩
            · intro h
              simp only
              exact hcmp h

theorem fileupdate_cases (env : FileEnv) (md5fn : List Nat → List Nat) (fname : String)
    (ff : Bool) :
    (∃ e, resolveUpd env.table env.running env.nextUpdate ff = .error e ∧
      mpy_ota_fileupdate env md5fn fname ff = failRun e [] none 0 []) ∨
    (∃ upd, resolveUpd env.table env.running env.nextUpdate ff = .ok upd ∧
      (mpy_ota_fileupdate env md5fn fname ff = failRun .mallocFail [] (some upd) 0 [] ∨
       mpy_ota_fileupdate env md5fn fname ff
         = failRun .otaBeginFail [Ev.otaBegin] (some upd) 0 [] ∨
       (env.fs fname = none ∧
         mpy_ota_fileupdate env md5fn fname ff
           = failRun .sourceNotFound [Ev.otaBegin] (some upd) 0 (loadFileMd5 env.fs fname)) ∨
       (∃ content, env.fs fname = some content ∧
         ((¬ 100000 < content.length ∧
            mpy_ota_fileupdate env md5fn fname ff
              = failRun .sourceTooSmall [Ev.otaBegin] (some upd) (content.length : Int)
                  (loadFileMd5 env.fs fname)) ∨
          (100000 < content.length ∧ (content.take BUFFSIZE).isEmpty = true ∧
            mpy_ota_fileupdate env md5fn fname ff
              = failRun .readFail [Ev.otaBegin] (some upd) (content.length : Int)
                  (loadFileMd5 env.fs fname)) ∨
          (100000 < content.length ∧ (content.take BUFFSIZE).head? ≠ some 233 ∧
            mpy_ota_fileupdate env md5fn fname ff
              = failRun .badMagic [Ev.otaBegin] (some upd) (content.length : Int)
                  (loadFileMd5 env.fs fname)) ∨
          (100000 < content.length ∧ (content.take BUFFSIZE).head? = some 233 ∧
            mpy_ota_fileupdate env md5fn fname ff
              = postFile upd (loadFileMd5 env.fs fname) md5fn (content.length : Int)
                  env.otaEndOk env.setBootOk
                  (file_loop (content.length + 2) (content.drop BUFFSIZE)
                    (content.take BUFFSIZE) (content.length : Int) upd.size env.otaWriteOk 0
                    (content.length : Int) [] [Ev.otaBegin])))))) := by
  unfold mpy_ota_fileupdate
  cases hres : resolveUpd env.table env.running env.nextUpdate ff with
  | error e => exact Or.inl ⟨e, rfl, rfl⟩
  | ok upd =>
    right
    refine ⟨upd, rfl, ?_⟩
    dsimp only
    cases hm : env.mallocOk with
    | false =>
      rw [if_pos (show (!false) = true from rfl)]
      exact Or.inl rfl
    | true =>
      rw [if_neg (show ¬((!true) = true) from by decide)]
      cases hob : env.otaBeginOk with
      | false =>
        rw [if_pos (show (!false) = true from rfl)]
        exact Or.inr (Or.inl rfl)
      | true =>
        rw [if_neg (show ¬((!true) = true) from by decide)]
        cases hfs : env.fs fname with
        | none => exact Or.inr (Or.inr (Or.inl ⟨rfl, rfl⟩))
        | some content =>
          right; right; right
          refine ⟨content, rfl, ?_⟩
          dsimp only
          by_cases hsz : 100000 < content.length
          · rw [if_neg (by simp [hsz])]
            by_cases hemp : (content.take BUFFSIZE).isEmpty = true
            · rw [if_pos hemp]
              exact Or.inr (Or.inl ⟨hsz, hemp, rfl⟩)
            · rw [if_neg hemp]
              by_cases hmag : (content.take BUFFSIZE).head? = some 233
              · rw [if_neg (by simp [hmag])]
                exact Or.inr (Or.inr (Or.inr ⟨hsz, hmag, rfl⟩))
              · rw [if_pos (by simp [hmag])]
                exact Or.inr (Or.inr (Or.inl ⟨hsz, hmag, rfl⟩))
          · rw [if_pos (by simp [hsz])]
            exact Or.inl ⟨hsz, rfl⟩

theorem postNet_target (upd : Partition) (md5F : Bool) (remote : List Nat)
    (md5fn : List Nat → List Nat) (expect : Int) (endOk sbOk : Bool) (lo : LoopOut) :
    (postNet upd md5F remote md5fn expect endOk sbOk lo).target = some upd := by
  unfold postNet
  cases lo.aborted <;> dsimp only
  split_ifs <;> rfl

theorem postFile_target (upd : Partition) (fileMd5 : List Nat)
    (md5fn : List Nat → List Nat) (expect : Int) (endOk sbOk : Bool) (lo : LoopOut) :
    (postFile upd fileMd5 md5fn expect endOk sbOk lo).target = some upd := by
  unfold postFile
  cases lo.aborted <;> dsimp only
  split_ifs <;> rfl

theorem writeSum_prefix (a b : List Ev) : writeSum a ≤ writeSum (a ++ b) := by
  rw [writeSum_append]
  omega

theorem writeSum_otaBegin : writeSum [Ev.otaBegin] = 0 := rfl

/-- C1: in every update run, network or local file, the bytes-written counter
never exceeds the target partition's capacity at any point of the transfer
loop — every prefix of the event trace has a flash-write total of at most the
capacity, and the reported total `binary_file_length` is at most the
capacity — provided the capacity is at least the 4096-byte transfer buffer
(the first chunk is written before the capacity guard runs, and all later
chunks pass the guard first). -/
theorem c1_written_within_capacity :
    (∀ (env : NetEnv) (md5fn : List Nat → List Nat) (md5F ff : Bool) (p : Partition)
       (l1 l2 : List Ev),
      (mpy_ota_update env md5fn md5F ff).target = some p →
      4096 ≤ p.size →
      (mpy_ota_update env md5fn md5F ff).events = l1 ++ l2 →
      writeSum l1 ≤ p.size ∧ (mpy_ota_update env md5fn md5F ff).written ≤ p.size) ∧
    (∀ (env : FileEnv) (md5fn : List Nat → List Nat) (fname : String) (ff : Bool)
       (p : Partition) (l1 l2 : List Ev),
      (mpy_ota_fileupdate env md5fn fname ff).target = some p →
      4096 ≤ p.size →
      (mpy_ota_fileupdate env md5fn fname ff).events = l1 ++ l2 →
      writeSum l1 ≤ p.size ∧ (mpy_ota_fileupdate env md5fn fname ff).written ≤ p.size) := by
  constructor
  · intro env md5fn md5F ff p l1 l2 htgt hcap hsplit
    have hmain : writeSum (mpy_ota_update env md5fn md5F ff).events ≤ p.size ∧
        (mpy_ota_update env md5fn md5F ff).written ≤ p.size := by
      rcases update_cases env md5fn md5F ff with ⟨e, hres, hrun⟩ | ⟨upd, hres, hcase⟩
      · rw [hrun, failRun_target] at htgt
        cases htgt
      · rcases hcase with ⟨-, hrun⟩ | ⟨-, -, hrun⟩ | ⟨-, -, e, hmd, hrun⟩ |
          ⟨-, -, remote, hmd, hrun⟩
        · rw [hrun, failRun_target] at htgt
          injection htgt with htgt2
          rw [hrun, failRun_events, failRun_written]
          exact ⟨by rw [writeSum_nil]; omega, by omega⟩
        · rw [hrun, failRun_target] at htgt
          injection htgt with htgt2
          rw [hrun, failRun_events, failRun_written]
          exact ⟨by rw [writeSum_otaBegin]; omega, by omega⟩
        · obtain ⟨-, hev, hwr, htg⟩ := md5Stage_error_spec hmd
          rw [hrun] at htgt ⊢
          rw [hev, hwr]
          exact ⟨by rw [writeSum_otaBegin]; omega, by omega⟩
        · rw [hrun] at htgt ⊢
          rcases imageStage_cases env md5fn (get_header env.imgNet 0 (upd.size : Int) 1) upd
              md5F remote with
            ⟨-, him⟩ | ⟨-, -, him⟩ | ⟨-, -, -, him⟩ | ⟨-, -, -, -, him⟩ | ⟨-, -, -, -, him⟩
          · rw [him, failRun_target] at htgt
            injection htgt with htgt2
            rw [him, failRun_events, failRun_written]
            exact ⟨by rw [writeSum_otaBegin]; omega, by omega⟩
          · rw [him, failRun_target] at htgt
            injection htgt with htgt2
            rw [him, failRun_events, failRun_written]
            exact ⟨by rw [writeSum_otaBegin]; omega, by omega⟩
          · rw [him, failRun_target] at htgt
            injection htgt with htgt2
            rw [him, failRun_events, failRun_written]
            exact ⟨by rw [writeSum_otaBegin]; omega, by omega⟩
          · rw [him, failRun_target] at htgt
            injection htgt with htgt2
            rw [him, failRun_events, failRun_written]
            exact ⟨by rw [writeSum_otaBegin]; omega, by omega⟩
          · have hpu : upd = p := by
              rw [him, postNet_target] at htgt
              injection htgt
            subst hpu
            obtain ⟨-, -, hwr, -, hws, -, -⟩ := postNet_spec upd md5F remote md5fn
              (get_header env.imgNet 0 (upd.size : Int) 1).expect env.otaEndOk env.setBootOk
              (ota_transfer_loop
                ((get_header env.imgNet 0 (upd.size : Int) 1).net.data.length + 2)
                (get_header env.imgNet 0 (upd.size : Int) 1).net
                (get_header env.imgNet 0 (upd.size : Int) 1).body
                (get_header env.imgNet 0 (upd.size : Int) 1).expect upd.size env.otaWriteOk 0 []
                [Ev.otaBegin])
            have hbody := get_header_body_le env.imgNet 0 (upd.size : Int)
            have hloop := ota_loop_writeSum
              ((get_header env.imgNet 0 (upd.size : Int) 1).net.data.length + 2)
              (get_header env.imgNet 0 (upd.size : Int) 1).net
              (get_header env.imgNet 0 (upd.size : Int) 1).body
              (get_header env.imgNet 0 (upd.size : Int) 1).expect upd.size env.otaWriteOk 0 []
              [Ev.otaBegin] writeSum_otaBegin
              (by have : BUFFSIZE = 4096 := rfl; omega)
            rw [him, hws, hwr]
            exact hloop
    refine ⟨?_, hmain.2⟩
    calc writeSum l1 ≤ writeSum (l1 ++ l2) := writeSum_prefix l1 l2
    _ ≤ p.size := by rw [← hsplit]; exact hmain.1
  · intro env md5fn fname ff p l1 l2 htgt hcap hsplit
    have hmain : writeSum (mpy_ota_fileupdate env md5fn fname ff).events ≤ p.size ∧
        (mpy_ota_fileupdate env md5fn fname ff).written ≤ p.size := by
      rcases fileupdate_cases env md5fn fname ff with ⟨e, hres, hrun⟩ | ⟨upd, hres, hcase⟩
      · rw [hrun, failRun_target] at htgt
        cases htgt
      · rcases hcase with hrun | hrun | ⟨-, hrun⟩ |
          ⟨content, hfs, ⟨-, hrun⟩ | ⟨-, -, hrun⟩ | ⟨-, -, hrun⟩ | ⟨-, hmag, hrun⟩⟩
        · rw [hrun, failRun_events, failRun_written]
          exact ⟨by rw [writeSum_nil]; omega, by omega⟩
        · rw [hrun, failRun_events, failRun_written]
          exact ⟨by rw [writeSum_otaBegin]; omega, by omega⟩
        · rw [hrun, failRun_events, failRun_written]
          exact ⟨by rw [writeSum_otaBegin]; omega, by omega⟩
        · rw [hrun, failRun_events, failRun_written]
          exact ⟨by rw [writeSum_otaBegin]; omega, by omega⟩
        · rw [hrun, failRun_events, failRun_written]
          exact ⟨by rw [writeSum_otaBegin]; omega, by omega⟩
        · rw [hrun, failRun_events, failRun_written]
          exact ⟨by rw [writeSum_otaBegin]; omega, by omega⟩
        · have hpu : upd = p := by
            rw [hrun, postFile_target] at htgt
            injection htgt
          subst hpu
          obtain ⟨-, -, hwr, -, hws, -, -, -⟩ := postFile_spec upd (loadFileMd5 env.fs fname)
            md5fn (content.length : Int) env.otaEndOk env.setBootOk
            (file_loop (content.length + 2) (content.drop BUFFSIZE) (content.take BUFFSIZE)
              (content.length : Int) upd.size env.otaWriteOk 0 (content.length : Int) []
              [Ev.otaBegin])
          have hfirst : (content.take BUFFSIZE).length ≤ 4096 := by
            simp only [List.length_take]
            have h2 := min_le_left BUFFSIZE content.length
            have h3 : BUFFSIZE = 4096 := rfl
            omega
          have hloop := file_loop_writeSum (content.length + 2) (content.drop BUFFSIZE)
            (content.take BUFFSIZE) (content.length : Int) upd.size env.otaWriteOk 0
            (content.length : Int) [] [Ev.otaBegin] writeSum_otaBegin (by omega)
          rw [hrun, hws, hwr]
          exact hloop
    refine ⟨?_, hmain.2⟩
    calc writeSum l1 ≤ writeSum (l1 ++ l2) := writeSum_prefix l1 l2
    _ ≤ p.size := by rw [← hsplit]; exact hmain.1

theorem md5Stage_false (env : NetEnv) (upd : Partition) :
    md5Stage env false upd = .ok [] := by
  unfold md5Stage
  rw [if_pos (show (!false) = true from rfl)]

theorem tooLarge_run_spec (env : NetEnv) (md5fn : List Nat → List Nat) (ff : Bool)
    (p : Partition) (d : Nat) (L : Int)
    (hres : resolveUpd env.table env.running env.nextUpdate ff = .ok p)
    (hm : env.mallocOk = true) (hob : env.otaBeginOk = true)
    (hc2 : env.connectOk2 = true) (hs2 : env.sendOk2 = true)
    (hd : findSub CRLF2 (cstr (env.imgNet.data.take 512)) = some d)
    (hreach : d + 4 ≤ 512)
    (hcl : clParse (env.imgNet.data.take d) = some L)
    (hpos : 0 < L) (hbig : (p.size : Int) < L) :
    (mpy_ota_update env md5fn false ff).reason = .imageTooLarge ∧
    (mpy_ota_update env md5fn false ff).ok = false ∧
    (mpy_ota_update env md5fn false ff).events = [Ev.otaBegin] ∧
    (mpy_ota_update env md5fn false ff).expect = L ∧
    (mpy_ota_update env md5fn false ff).written = 0 := by
  have hTL : ghTLb (env.imgNet.data.take d) (p.size : Int) = true := by
    rw [ghTLb, hcl]
    simp only [decide_eq_true_eq]
    exact ⟨hpos, hbig⟩
  have hE : ghExpect (env.imgNet.data.take d) 0 = L := by
    rw [ghExpect, hcl]
  have hgh := get_header_found env.imgNet.data env.imgNet.sched 0 (p.size : Int) d hd hreach
  obtain ⟨hg1, hg2, hg3, -⟩ := hgh
  have hbody : (get_header env.imgNet 0 (p.size : Int) 1).body = [] := hg3 hTL
  have htl2 : (get_header env.imgNet 0 (p.size : Int) 1).tooLarge = true := by
    rw [hg1, hTL]
  have hexp : (get_header env.imgNet 0 (p.size : Int) 1).expect = L := by
    rw [hg2, hE]
  rcases update_cases env md5fn false ff with ⟨e, hres2, hrun⟩ | ⟨upd, hres2, hcase⟩
  · rw [hres] at hres2
    cases hres2
  · rw [hres] at hres2
    injection hres2 with hres3
    subst hres3
    rcases hcase with ⟨hm2, hrun⟩ | ⟨-, hob2, hrun⟩ | ⟨-, -, e, hmd, hrun⟩ |
      ⟨-, -, remote, hmd, hrun⟩
    · rw [hm2] at hm
      cases hm
    · rw [hob2] at hob
      cases hob
    · rw [md5Stage_false] at hmd
      cases hmd
    · rw [md5Stage_false] at hmd
      injection hmd with hmd2
      subst hmd2
      rcases imageStage_cases env md5fn (get_header env.imgNet 0 (p.size : Int) 1) p false []
          with
        ⟨hc2f, him⟩ | ⟨-, hs2f, him⟩ | ⟨-, -, hb0, him⟩ | ⟨-, -, hbne, -, him⟩ |
        ⟨-, -, hbne, -, him⟩
      · rw [hc2f] at hc2
        cases hc2
      · rw [hs2f] at hs2
        cases hs2
      · rw [hrun, him, htl2, if_pos rfl]
        exact ⟨failRun_reason _ _ _ _ _, failRun_ok _ _ _ _ _, failRun_events _ _ _ _ _,
          hexp, failRun_written _ _ _ _ _⟩
      · rw [hbody] at hbne
        simp at hbne
      · rw [hbody] at hbne
        simp at hbne

/-- C2 counterexample: the scenario of the claim — partition capacity
1048576, declared length 2000000 — does abort with `imageTooLarge`, but
`esp_ota_begin` has already been attempted in that run (it is called before
the header is even fetched), contradicting "no flash-open attempted". -/
theorem c2_counterexample :
    (mpy_ota_update (envWith ⟨hdrBig, []⟩ ⟨[], []⟩) md5Zero false false).expect = 2000000 ∧
    pOta2.size = 1048576 ∧
    (mpy_ota_update (envWith ⟨hdrBig, []⟩ ⟨[], []⟩) md5Zero false false).target = some pOta2 ∧
    (mpy_ota_update (envWith ⟨hdrBig, []⟩ ⟨[], []⟩) md5Zero false false).reason
      = Reason.imageTooLarge ∧
    Ev.otaBegin ∈ (mpy_ota_update (envWith ⟨hdrBig, []⟩ ⟨[], []⟩) md5Zero false false).events := by
  decide

/-- C2 (amended): for every network update whose response parses a
`Content-Length` greater than the target partition's capacity, the session
aborts with the `imageTooLarge` condition, reports failure, and writes zero
bytes; however `esp_ota_begin` (the flash-open) has already been attempted by
then — the run's event trace is exactly `[otaBegin]`. -/
theorem c2_amended_abort (env : NetEnv) (md5fn : List Nat → List Nat) (ff : Bool)
    (p : Partition) (d : Nat) (L : Int)
    (hres : resolveUpd env.table env.running env.nextUpdate ff = .ok p)
    (hm : env.mallocOk = true) (hob : env.otaBeginOk = true)
    (hc2 : env.connectOk2 = true) (hs2 : env.sendOk2 = true)
    (hd : findSub CRLF2 (cstr (env.imgNet.data.take 512)) = some d)
    (hreach : d + 4 ≤ 512)
    (hcl : clParse (env.imgNet.data.take d) = some L)
    (hpos : 0 < L) (hbig : (p.size : Int) < L) :
    (mpy_ota_update env md5fn false ff).reason = .imageTooLarge ∧
    (mpy_ota_update env md5fn false ff).ok = false ∧
    (mpy_ota_update env md5fn false ff).written = 0 ∧
    (mpy_ota_update env md5fn false ff).events = [Ev.otaBegin] := by
  obtain ⟨h1, h2, h3, h4, h5⟩ :=
    tooLarge_run_spec env md5fn ff p d L hres hm hob hc2 hs2 hd hreach hcl hpos hbig
  exact ⟨h1, h2, h5, h3⟩

theorem c2_amended_abort_witness :
    (mpy_ota_update (envWith ⟨hdrBig, []⟩ ⟨[], []⟩) md5Zero false false).reason
      = .imageTooLarge ∧
    (mpy_ota_update (envWith ⟨hdrBig, []⟩ ⟨[], []⟩) md5Zero false false).ok = false ∧
    (mpy_ota_update (envWith ⟨hdrBig, []⟩ ⟨[], []⟩) md5Zero false false).written = 0 ∧
    (mpy_ota_update (envWith ⟨hdrBig, []⟩ ⟨[], []⟩) md5Zero false false).events
      = [Ev.otaBegin] :=
  c2_amended_abort (envWith ⟨hdrBig, []⟩ ⟨[], []⟩) md5Zero false pOta2 46 2000000
    (by rfl) (by decide) (by decide) (by decide) (by decide) (by decide) (by decide)
    (by decide) (by decide) (by decide)

/-- C3 counterexample: a response whose `Content-Length` header line is the
final one before the blank line carries a value (2000000) exceeding the
partition capacity (1048576), yet the session writes the whole body to flash
and succeeds: the `\x5cr\x5cn\x5cr\x5cn` delimiter search null-terminates the
buffer at the delimiter, truncating away the line terminator the
`Content-Length` parser requires, so the declared length is silently
ignored. -/
theorem c3_counterexample :
    occursAt (tb ("Content-Length: 2000000")) hdrBigLast 17 ∧
    pOta2.size = 1048576 ∧
    (mpy_ota_update (envWith ⟨hdrBigLast, []⟩ ⟨[], []⟩) md5Zero false false).target
      = some pOta2 ∧
    (mpy_ota_update (envWith ⟨hdrBigLast, []⟩ ⟨[], []⟩) md5Zero false false).ok = true ∧
    Ev.otaWrite [233, 1, 2, 3, 4]
      ∈ (mpy_ota_update (envWith ⟨hdrBigLast, []⟩ ⟨[], []⟩) md5Zero false false).events := by
  refine ⟨?_, by decide, by decide, by decide, by decide⟩
  unfold occursAt
  decide

/-- C3 (amended): the abort-before-any-write guarantee holds only when the
`Content-Length` line is actually parsed, which requires a further header
line between it and the blank-line delimiter (otherwise the null written at
the delimiter truncates the line before its terminator and the value is
ignored). Under that condition, with the delimiter inside the 512-byte
header window, a declared length exceeding the partition capacity makes the
run abort with `imageTooLarge`: zero bytes written and no `otaWrite` event
ever occurs. -/
theorem c3_amended_no_write (env : NetEnv) (md5fn : List Nat → List Nat) (ff : Bool)
    (p : Partition) (d : Nat) (L : Int)
    (hres : resolveUpd env.table env.running env.nextUpdate ff = .ok p)
    (hm : env.mallocOk = true) (hob : env.otaBeginOk = true)
    (hc2 : env.connectOk2 = true) (hs2 : env.sendOk2 = true)
    (hd : findSub CRLF2 (cstr (env.imgNet.data.take 512)) = some d)
    (hreach : d + 4 ≤ 512)
    (hcl : clParse (env.imgNet.data.take d) = some L)
    (hpos : 0 < L) (hbig : (p.size : Int) < L) :
    (mpy_ota_update env md5fn false ff).ok = false ∧
    (mpy_ota_update env md5fn false ff).written = 0 ∧
    ∀ c, Ev.otaWrite c ∉ (mpy_ota_update env md5fn false ff).events := by
  obtain ⟨h1, h2, h3, h4, h5⟩ :=
    tooLarge_run_spec env md5fn ff p d L hres hm hob hc2 hs2 hd hreach hcl hpos hbig
  refine ⟨h2, h5, ?_⟩
  intro c hc
  rw [h3] at hc
  simp at hc

theorem c3_amended_no_write_witness :
    (mpy_ota_update (envWith ⟨hdrBig2, []⟩ ⟨[], []⟩) md5Zero false false).ok = false ∧
    (mpy_ota_update (envWith ⟨hdrBig2, []⟩ ⟨[], []⟩) md5Zero false false).written = 0 ∧
    ∀ c, Ev.otaWrite c
      ∉ (mpy_ota_update (envWith ⟨hdrBig2, []⟩ ⟨[], []⟩) md5Zero false false).events :=
  c3_amended_no_write (envWith ⟨hdrBig2, []⟩ ⟨[], []⟩) md5Zero false pOta2 46 9999999
    (by rfl) (by decide) (by decide) (by decide) (by decide) (by decide) (by decide)
    (by decide) (by decide) (by decide)

/-- C4: in every update run, network or local file, whose reported expected
digest is a 32-character digest differing from the MD5 hex digest computed
over the bytes written, `esp_ota_set_boot_partition` is never invoked — no
`setBoot` event occurs — and the session reports failure. -/
theorem c4_md5_mismatch_no_commit :
    (∀ (env : NetEnv) (md5fn : List Nat → List Nat) (ff : Bool),
      (mpy_ota_update env md5fn true ff).remoteMd5.length = 32 →
      (mpy_ota_update env md5fn true ff).remoteMd5
        ≠ md5hex (md5fn (mpy_ota_update env md5fn true ff).bytes) →
      (∀ q, Ev.setBoot q ∉ (mpy_ota_update env md5fn true ff).events) ∧
      (mpy_ota_update env md5fn true ff).ok = false) ∧
    (∀ (env : FileEnv) (md5fn : List Nat → List Nat) (fname : String) (ff : Bool),
      (mpy_ota_fileupdate env md5fn fname ff).remoteMd5.length = 32 →
      (mpy_ota_fileupdate env md5fn fname ff).remoteMd5
        ≠ md5hex (md5fn (mpy_ota_fileupdate env md5fn fname ff).bytes) →
      (∀ q, Ev.setBoot q ∉ (mpy_ota_fileupdate env md5fn fname ff).events) ∧
      (mpy_ota_fileupdate env md5fn fname ff).ok = false) := by
  constructor
  · intro env md5fn ff hlen hne
    rcases update_cases env md5fn true ff with ⟨e, hres, hrun⟩ | ⟨upd, hres, hcase⟩
    · rw [hrun]
      refine ⟨?_, failRun_ok _ _ _ _ _⟩
      intro q hq
      rw [failRun_events] at hq
      simp at hq
    · rcases hcase with ⟨-, hrun⟩ | ⟨-, -, hrun⟩ | ⟨-, -, e, hmd, hrun⟩ |
        ⟨-, -, remote, hmd, hrun⟩
      · rw [hrun]
        refine ⟨?_, failRun_ok _ _ _ _ _⟩
        intro q hq
        rw [failRun_events] at hq
        simp at hq
      · rw [hrun]
        refine ⟨?_, failRun_ok _ _ _ _ _⟩
        intro q hq
        rw [failRun_events] at hq
        simp at hq
      · obtain ⟨hok, hevs, -, -⟩ := md5Stage_error_spec hmd
        rw [hrun]
        refine ⟨?_, hok⟩
        intro q hq
        rw [hevs] at hq
        simp at hq
      · have hr32 := (md5Stage_ok_spec hmd).1 rfl
        rcases imageStage_cases env md5fn (get_header env.imgNet 0 (upd.size : Int) 1) upd
            true remote with
          ⟨-, him⟩ | ⟨-, -, him⟩ | ⟨-, -, -, him⟩ | ⟨-, -, -, -, him⟩ | ⟨-, -, -, -, him⟩
        · rw [hrun, him]
          refine ⟨?_, failRun_ok _ _ _ _ _⟩
          intro q hq
          rw [failRun_events] at hq
          simp at hq
        · rw [hrun, him]
          refine ⟨?_, failRun_ok _ _ _ _ _⟩
          intro q hq
          rw [failRun_events] at hq
          simp at hq
        · rw [hrun, him]
          refine ⟨?_, failRun_ok _ _ _ _ _⟩
          intro q hq
          rw [failRun_events] at hq
          simp at hq
        · rw [hrun, him]
          refine ⟨?_, failRun_ok _ _ _ _ _⟩
          intro q hq
          rw [failRun_events] at hq
          simp at hq
        · rw [hrun, him] at hlen hne ⊢
          obtain ⟨hrm, hby, -, -, -, hsb, hok⟩ := postNet_spec upd true remote md5fn
            (get_header env.imgNet 0 (upd.size : Int) 1).expect env.otaEndOk env.setBootOk
            (ota_transfer_loop ((get_header env.imgNet 0 (upd.size : Int) 1).net.data.length + 2)
              (get_header env.imgNet 0 (upd.size : Int) 1).net
              (get_header env.imgNet 0 (upd.size : Int) 1).body
              (get_header env.imgNet 0 (upd.size : Int) 1).expect upd.size env.otaWriteOk 0 []
              [Ev.otaBegin])
          rw [hrm] at hlen hne
          rw [hby] at hne
          constructor
          · intro q hq
            rcases hsb q hq with h2 | ⟨-, hmd2, -⟩
            · have h3 := ota_loop_setBoot _ _ _ _ _ _ _ _ _ _ h2
              simp at h3
            · exact hne (hmd2 (by simp [hr32]))
          · cases hok2 : (postNet upd true remote md5fn
                (get_header env.imgNet 0 (upd.size : Int) 1).expect env.otaEndOk env.setBootOk
                (ota_transfer_loop
                  ((get_header env.imgNet 0 (upd.size : Int) 1).net.data.length + 2)
                  (get_header env.imgNet 0 (upd.size : Int) 1).net
                  (get_header env.imgNet 0 (upd.size : Int) 1).body
                  (get_header env.imgNet 0 (upd.size : Int) 1).expect upd.size env.otaWriteOk 0
                  [] [Ev.otaBegin])).ok
            · rfl
            · obtain ⟨-, -, hmd2⟩ := hok hok2
              exact absurd (hmd2 (by simp [hr32])) hne
  · intro env md5fn fname ff hlen hne
    rcases fileupdate_cases env md5fn fname ff with ⟨e, hres, hrun⟩ | ⟨upd, hres, hcase⟩
    · rw [hrun]
      refine ⟨?_, failRun_ok _ _ _ _ _⟩
      intro q hq
      rw [failRun_events] at hq
      simp at hq
    · rcases hcase with hrun | hrun | ⟨-, hrun⟩ |
        ⟨content, hfs, ⟨-, hrun⟩ | ⟨-, -, hrun⟩ | ⟨-, -, hrun⟩ | ⟨-, -, hrun⟩⟩
      · rw [hrun]
        refine ⟨?_, failRun_ok _ _ _ _ _⟩
        intro q hq
        rw [failRun_events] at hq
        simp at hq
      · rw [hrun]
        refine ⟨?_, failRun_ok _ _ _ _ _⟩
        intro q hq
        rw [failRun_events] at hq
        simp at hq
      · rw [hrun]
        refine ⟨?_, failRun_ok _ _ _ _ _⟩
        intro q hq
        rw [failRun_events] at hq
        simp at hq
      · rw [hrun]
        refine ⟨?_, failRun_ok _ _ _ _ _⟩
        intro q hq
        rw [failRun_events] at hq
        simp at hq
      · rw [hrun]
        refine ⟨?_, failRun_ok _ _ _ _ _⟩
        intro q hq
        rw [failRun_events] at hq
        simp at hq
      · rw [hrun]
        refine ⟨?_, failRun_ok _ _ _ _ _⟩
        intro q hq
        rw [failRun_events] at hq
        simp at hq
      · rw [hrun] at hlen hne ⊢
        obtain ⟨hrm, hby, -, -, -, hsb, hok, -⟩ := postFile_spec upd
          (loadFileMd5 env.fs fname) md5fn (content.length : Int) env.otaEndOk env.setBootOk
          (file_loop (content.length + 2) (content.drop BUFFSIZE) (content.take BUFFSIZE)
            (content.length : Int) upd.size env.otaWriteOk 0 (content.length : Int) []
            [Ev.otaBegin])
        rw [hrm] at hlen hne
        rw [hby] at hne
        constructor
        · intro q hq
          rcases hsb q hq with h2 | ⟨-, hmd2, -⟩
          · have h3 := file_loop_setBoot _ _ _ _ _ _ _ _ _ _ _ h2
            simp at h3
          · exact hne (hmd2 (by simp [hlen]))
        · cases hok2 : (postFile upd (loadFileMd5 env.fs fname) md5fn (content.length : Int)
              env.otaEndOk env.setBootOk
              (file_loop (content.length + 2) (content.drop BUFFSIZE) (content.take BUFFSIZE)
                (content.length : Int) upd.size env.otaWriteOk 0 (content.length : Int) []
                [Ev.otaBegin])).ok
          · rfl
          · obtain ⟨-, -, hmd2⟩ := hok hok2
            exact absurd (hmd2 (by simp [hlen])) hne

theorem c4_md5_mismatch_no_commit_witness :
    (∀ q, Ev.setBoot q
      ∉ (mpy_ota_update (envWith ⟨hdrOk3, []⟩ ⟨md5RespA, []⟩) md5Zero true false).events) ∧
    (mpy_ota_update (envWith ⟨hdrOk3, []⟩ ⟨md5RespA, []⟩) md5Zero true false).ok = false :=
  c4_md5_mismatch_no_commit.1 (envWith ⟨hdrOk3, []⟩ ⟨md5RespA, []⟩) md5Zero false
    (by decide) (by decide)

theorem postNet_mismatch (upd : Partition) (md5F : Bool) (remote : List Nat)
    (md5fn : List Nat → List Nat) (expect : Int) (endOk sbOk : Bool) (lo : LoopOut)
    (ha : lo.aborted = none) (h1 : 0 < expect) (h2 : expect ≠ (lo.written : Int)) :
    postNet upd md5F remote md5fn expect endOk sbOk lo
      = ⟨false, .lengthMismatch, lo.evs, lo.written, lo.bytes, expect, some upd, remote,
          false⟩ := by
  unfold postNet
  rw [ha]
  dsimp only
  rw [if_pos ⟨h1, h2⟩]

theorem mismatch_run_spec (env : NetEnv) (md5fn : List Nat → List Nat) (ff : Bool)
    (p : Partition) (d : Nat) (L : Int) (B : List Nat)
    (hres : resolveUpd env.table env.running env.nextUpdate ff = .ok p)
    (hm : env.mallocOk = true) (hob : env.otaBeginOk = true)
    (hc2 : env.connectOk2 = true) (hs2 : env.sendOk2 = true)
    (hwr : env.otaWriteOk = true)
    (hd : findSub CRLF2 (cstr (env.imgNet.data.take 512)) = some d)
    (hreach : d + 4 ≤ 512)
    (hcl : clParse (env.imgNet.data.take d) = some L)
    (hpos : 0 < L) (hfit : L ≤ (p.size : Int))
    (hdrop : env.imgNet.data.drop (d + 4) = B)
    (hBne : B ≠ [])
    (hhead : B.head? = some 233)
    (hsmall : ((B.length : Nat) : Int) < L)
    (hcap : B.length ≤ p.size) :
    (mpy_ota_update env md5fn false ff).reason = .lengthMismatch ∧
    (mpy_ota_update env md5fn false ff).ok = false ∧
    (mpy_ota_update env md5fn false ff).written = B.length ∧
    (mpy_ota_update env md5fn false ff).expect = L ∧
    ∀ q, Ev.setBoot q ∉ (mpy_ota_update env md5fn false ff).events := by
  have hTL : ghTLb (env.imgNet.data.take d) (p.size : Int) = false := by
    rw [ghTLb, hcl]
    simp only [decide_eq_false_iff_not, not_and, not_lt]
    intro h2
    exact hfit
  have hE : ghExpect (env.imgNet.data.take d) 0 = L := by
    rw [ghExpect, hcl]
  obtain ⟨hg1, hg2, -, hg4⟩ :=
    get_header_found env.imgNet.data env.imgNet.sched 0 (p.size : Int) d hd hreach
  have htl2 : (get_header env.imgNet 0 (p.size : Int) 1).tooLarge = false := by
    rw [hg1, hTL]
  have hexp : (get_header env.imgNet 0 (p.size : Int) 1).expect = L := by
    rw [hg2, hE]
  obtain ⟨happ, hbiff⟩ := hg4 hTL
  rw [hdrop] at happ
  have hDlen : d + 4 < env.imgNet.data.length := by
    by_contra h2
    push_neg at h2
    have h3 : env.imgNet.data.drop (d + 4) = [] := List.drop_eq_nil_of_le h2
    rw [hdrop] at h3
    exact hBne h3
  have hbne : (get_header env.imgNet 0 (p.size : Int) 1).body ≠ [] := by
    intro h2
    have h3 := hbiff.mp h2
    omega
  have hlens : (get_header env.imgNet 0 (p.size : Int) 1).body.length
      + (get_header env.imgNet 0 (p.size : Int) 1).net.data.length = B.length := by
    have h2 := congrArg List.length happ
    simpa using h2
  have hheadb : (get_header env.imgNet 0 (p.size : Int) 1).body.head? = some 233 := by
    rcases hbody : (get_header env.imgNet 0 (p.size : Int) 1).body with - | ⟨a, t⟩
    · exact absurd hbody hbne
    · rw [hbody] at happ
      rw [List.cons_append] at happ
      rw [← hhead, ← happ]
      rfl
  obtain ⟨hla, hlw, hlb⟩ := ota_loop_complete
    ((get_header env.imgNet 0 (p.size : Int) 1).net.data.length + 2)
    (get_header env.imgNet 0 (p.size : Int) 1).net
    (get_header env.imgNet 0 (p.size : Int) 1).body L p.size 0 [] [Ev.otaBegin]
    (by omega) (fun h2 => absurd h2 hbne) (by right; push_cast; omega) (by omega)
  rcases update_cases env md5fn false ff with ⟨e, hres2, hrun⟩ | ⟨upd, hres2, hcase⟩
  · rw [hres] at hres2
    cases hres2
  · rw [hres] at hres2
    injection hres2 with hres3
    subst hres3
    rcases hcase with ⟨hm2, hrun⟩ | ⟨-, hob2, hrun⟩ | ⟨-, -, e, hmd, hrun⟩ |
      ⟨-, -, remote, hmd, hrun⟩
    · rw [hm2] at hm
      cases hm
    · rw [hob2] at hob
      cases hob
    · rw [md5Stage_false] at hmd
      cases hmd
    · rw [md5Stage_false] at hmd
      injection hmd with hmd2
      subst hmd2
      rcases imageStage_cases env md5fn (get_header env.imgNet 0 (p.size : Int) 1) p false []
          with
        ⟨hc2f, him⟩ | ⟨-, hs2f, him⟩ | ⟨-, -, hb0, him⟩ | ⟨-, -, -, hmag, him⟩ |
        ⟨-, -, -, -, him⟩
      · rw [hc2f] at hc2
        cases hc2
      · rw [hs2f] at hs2
        cases hs2
      · exact absurd (List.length_eq_zero.mp hb0) hbne
      · exact absurd hheadb hmag
      · rw [hexp, hwr] at him
        rw [hrun, him]
        rw [postNet_mismatch p false [] md5fn L env.otaEndOk env.setBootOk _ hla hpos
          (by rw [hlw]; push_cast; omega)]
        refine ⟨rfl, rfl, ?_, rfl, ?_⟩
        · dsimp only
          rw [hlw]
          omega
        · intro q hq
          dsimp only at hq
          have h3 := ota_loop_setBoot _ _ _ _ _ _ _ _ _ _ hq
          simp at h3

/-- C5: round-trip size law — in every successful run with a positive declared
length (network `Content-Length`, or the local file's size, which the file
path always has), the total bytes written equals the declared length; and in
any run of the scenario shape — declared length `L` within the partition, the
stream closing after a body of fewer than `L` bytes — the session aborts with
the `lengthMismatch` condition and no `setBoot` event occurs. -/
theorem c5_round_trip_size :
    (∀ (env : NetEnv) (md5fn : List Nat → List Nat) (md5F ff : Bool),
      (mpy_ota_update env md5fn md5F ff).ok = true →
      0 < (mpy_ota_update env md5fn md5F ff).expect →
      (((mpy_ota_update env md5fn md5F ff).written : Nat) : Int)
        = (mpy_ota_update env md5fn md5F ff).expect) ∧
    (∀ (env : FileEnv) (md5fn : List Nat → List Nat) (fname : String) (ff : Bool),
      (mpy_ota_fileupdate env md5fn fname ff).ok = true →
      (((mpy_ota_fileupdate env md5fn fname ff).written : Nat) : Int)
        = (mpy_ota_fileupdate env md5fn fname ff).expect) ∧
    (∀ (env : NetEnv) (md5fn : List Nat → List Nat) (ff : Bool)
       (p : Partition) (d : Nat) (L : Int) (B : List Nat),
      resolveUpd env.table env.running env.nextUpdate ff = .ok p →
      env.mallocOk = true → env.otaBeginOk = true →
      env.connectOk2 = true → env.sendOk2 = true → env.otaWriteOk = true →
      findSub CRLF2 (cstr (env.imgNet.data.take 512)) = some d →
      d + 4 ≤ 512 →
      clParse (env.imgNet.data.take d) = some L →
      0 < L → L ≤ (p.size : Int) →
      env.imgNet.data.drop (d + 4) = B →
      B ≠ [] → B.head? = some 233 →
      ((B.length : Nat) : Int) < L → B.length ≤ p.size →
      (mpy_ota_update env md5fn false ff).reason = .lengthMismatch ∧
      (mpy_ota_update env md5fn false ff).ok = false ∧
      (mpy_ota_update env md5fn false ff).written = B.length ∧
      (mpy_ota_update env md5fn false ff).expect = L ∧
      ∀ q, Ev.setBoot q ∉ (mpy_ota_update env md5fn false ff).events) := by
  refine ⟨?_, ?_, ?_⟩
  · intro env md5fn md5F ff hok hpos
    rcases update_cases env md5fn md5F ff with ⟨e, hres, hrun⟩ | ⟨upd, hres, hcase⟩
    · rw [hrun, failRun_ok] at hok
      cases hok
    · rcases hcase with ⟨-, hrun⟩ | ⟨-, -, hrun⟩ | ⟨-, -, e, hmd, hrun⟩ |
        ⟨-, -, remote, hmd, hrun⟩
      · rw [hrun, failRun_ok] at hok
        cases hok
      · rw [hrun, failRun_ok] at hok
        cases hok
      · obtain ⟨hok2, -, -, -⟩ := md5Stage_error_spec hmd
        rw [hrun] at hok
        rw [hok2] at hok
        cases hok
      · rcases imageStage_cases env md5fn (get_header env.imgNet 0 (upd.size : Int) 1) upd
            md5F remote with
          ⟨-, him⟩ | ⟨-, -, him⟩ | ⟨-, -, -, him⟩ | ⟨-, -, -, -, him⟩ | ⟨-, -, -, -, him⟩
        · rw [hrun, him, failRun_ok] at hok
          cases hok
        · rw [hrun, him, failRun_ok] at hok
          cases hok
        · rw [hrun, him, failRun_ok] at hok
          cases hok
        · rw [hrun, him, failRun_ok] at hok
          cases hok
        · rw [hrun, him] at hok hpos ⊢
          obtain ⟨-, -, hw, he, -, -, hokc⟩ := postNet_spec upd md5F remote md5fn
            (get_header env.imgNet 0 (upd.size : Int) 1).expect env.otaEndOk env.setBootOk
            (ota_transfer_loop
              ((get_header env.imgNet 0 (upd.size : Int) 1).net.data.length + 2)
              (get_header env.imgNet 0 (upd.size : Int) 1).net
              (get_header env.imgNet 0 (upd.size : Int) 1).body
              (get_header env.imgNet 0 (upd.size : Int) 1).expect upd.size env.otaWriteOk 0
              [] [Ev.otaBegin])
          obtain ⟨-, hlen2, -⟩ := hokc hok
          rw [he] at hpos
          rw [hw, he]
          exact (hlen2 hpos).symm
  · intro env md5fn fname ff hok
    rcases fileupdate_cases env md5fn fname ff with ⟨e, hres, hrun⟩ | ⟨upd, hres, hcase⟩
    · rw [hrun, failRun_ok] at hok
      cases hok
    · rcases hcase with hrun | hrun | ⟨-, hrun⟩ |
        ⟨content, hfs, ⟨-, hrun⟩ | ⟨-, -, hrun⟩ | ⟨-, -, hrun⟩ | ⟨-, -, hrun⟩⟩
      · rw [hrun, failRun_ok] at hok
        cases hok
      · rw [hrun, failRun_ok] at hok
        cases hok
      · rw [hrun, failRun_ok] at hok
        cases hok
      · rw [hrun, failRun_ok] at hok
        cases hok
      · rw [hrun, failRun_ok] at hok
        cases hok
      · rw [hrun, failRun_ok] at hok
        cases hok
      · rw [hrun] at hok ⊢
        obtain ⟨-, -, hw, he, -, -, hokc, -⟩ := postFile_spec upd
          (loadFileMd5 env.fs fname) md5fn (content.length : Int) env.otaEndOk env.setBootOk
          (file_loop (content.length + 2) (content.drop BUFFSIZE) (content.take BUFFSIZE)
            (content.length : Int) upd.size env.otaWriteOk 0 (content.length : Int) []
            [Ev.otaBegin])
        obtain ⟨-, hlen2, -⟩ := hokc hok
        rw [hw, he]
        exact hlen2.symm
  · intro env md5fn ff p d L B hres hm hob hc2 hs2 hwr hd hreach hcl hpos hfit hdrop hBne
      hhead hsmall hcap
    exact mismatch_run_spec env md5fn ff p d L B hres hm hob hc2 hs2 hwr hd hreach hcl hpos
      hfit hdrop hBne hhead hsmall hcap

theorem c5_round_trip_size_witness :
    ((((mpy_ota_update (envWith ⟨hdrOk3, []⟩ ⟨[], []⟩) md5Zero false false).written : Nat)
        : Int)
      = (mpy_ota_update (envWith ⟨hdrOk3, []⟩ ⟨[], []⟩) md5Zero false false).expect) ∧
    ((mpy_ota_update (envWith ⟨D500, []⟩ ⟨[], []⟩) md5Zero false false).reason
        = .lengthMismatch ∧
      (mpy_ota_update (envWith ⟨D500, []⟩ ⟨[], []⟩) md5Zero false false).ok = false ∧
      (mpy_ota_update (envWith ⟨D500, []⟩ ⟨[], []⟩) md5Zero false false).written
        = (List.replicate 400000 233).length ∧
      (mpy_ota_update (envWith ⟨D500, []⟩ ⟨[], []⟩) md5Zero false false).expect = 500000 ∧
      ∀ q, Ev.setBoot q
        ∉ (mpy_ota_update (envWith ⟨D500, []⟩ ⟨[], []⟩) md5Zero false false).events) :=
  ⟨c5_round_trip_size.1 (envWith ⟨hdrOk3, []⟩ ⟨[], []⟩) md5Zero false false (by decide)
      (by decide),
   c5_round_trip_size.2.2 (envWith ⟨D500, []⟩ ⟨[], []⟩) md5Zero false pOta2 45 500000
     (List.replicate 400000 233) (by rfl) (by decide) (by decide) (by decide) (by decide)
     (by decide) (by decide) (by decide) (by decide) (by decide) (by decide) (by rfl)
     (by intro h
         have h2 := congrArg List.length h
         rw [List.length_replicate, List.length_nil] at h2
         omega)
     (by rfl)
     (by rw [List.length_replicate]; omega)
     (by rw [List.length_replicate]; decide)⟩

/-- C6: in every update run, network or local file, whose first body byte
(first file byte) is not the 0xE9 image magic — including the case of an
empty body — the session reports failure with zero bytes written: no
`otaWrite` event and no `setBoot` event ever occurs. -/
theorem c6_bad_magic_aborts :
    (∀ (env : NetEnv) (md5fn : List Nat → List Nat) (md5F ff : Bool) (upd : Partition),
      resolveUpd env.table env.running env.nextUpdate ff = .ok upd →
      (get_header env.imgNet 0 (upd.size : Int) 1).body.head? ≠ some 233 →
      (mpy_ota_update env md5fn md5F ff).ok = false ∧
      (mpy_ota_update env md5fn md5F ff).written = 0 ∧
      (∀ c, Ev.otaWrite c ∉ (mpy_ota_update env md5fn md5F ff).events) ∧
      (∀ q, Ev.setBoot q ∉ (mpy_ota_update env md5fn md5F ff).events)) ∧
    (∀ (env : FileEnv) (md5fn : List Nat → List Nat) (fname : String) (ff : Bool)
       (content : List Nat),
      env.fs fname = some content →
      (content.take BUFFSIZE).head? ≠ some 233 →
      (mpy_ota_fileupdate env md5fn fname ff).ok = false ∧
      (mpy_ota_fileupdate env md5fn fname ff).written = 0 ∧
      (∀ c, Ev.otaWrite c ∉ (mpy_ota_fileupdate env md5fn fname ff).events) ∧
      (∀ q, Ev.setBoot q ∉ (mpy_ota_fileupdate env md5fn fname ff).events)) := by
  constructor
  · intro env md5fn md5F ff upd hres hmagic
    rcases update_cases env md5fn md5F ff with ⟨e, hres2, hrun⟩ | ⟨upd2, hres2, hcase⟩
    · rw [hres] at hres2
      cases hres2
    · rw [hres] at hres2
      injection hres2 with hres3
      subst hres3
      rcases hcase with ⟨-, hrun⟩ | ⟨-, -, hrun⟩ | ⟨-, -, e, hmd, hrun⟩ |
        ⟨-, -, remote, hmd, hrun⟩
      · rw [hrun]
        refine ⟨failRun_ok _ _ _ _ _, failRun_written _ _ _ _ _, ?_, ?_⟩ <;>
          · intro x hx
            rw [failRun_events] at hx
            simp at hx
      · rw [hrun]
        refine ⟨failRun_ok _ _ _ _ _, failRun_written _ _ _ _ _, ?_, ?_⟩ <;>
          · intro x hx
            rw [failRun_events] at hx
            simp at hx
      · obtain ⟨hok, hevs, hw, -⟩ := md5Stage_error_spec hmd
        rw [hrun]
        refine ⟨hok, hw, ?_, ?_⟩ <;>
          · intro x hx
            rw [hevs] at hx
            simp at hx
      · rcases imageStage_cases env md5fn (get_header env.imgNet 0 (upd.size : Int) 1) upd
            md5F remote with
          ⟨-, him⟩ | ⟨-, -, him⟩ | ⟨-, -, -, him⟩ | ⟨-, -, -, -, him⟩ |
          ⟨-, -, -, hhd, him⟩
        · rw [hrun, him]
          refine ⟨failRun_ok _ _ _ _ _, failRun_written _ _ _ _ _, ?_, ?_⟩ <;>
            · intro x hx
              rw [failRun_events] at hx
              simp at hx
        · rw [hrun, him]
          refine ⟨failRun_ok _ _ _ _ _, failRun_written _ _ _ _ _, ?_, ?_⟩ <;>
            · intro x hx
              rw [failRun_events] at hx
              simp at hx
        · rw [hrun, him]
          refine ⟨failRun_ok _ _ _ _ _, failRun_written _ _ _ _ _, ?_, ?_⟩ <;>
            · intro x hx
              rw [failRun_events] at hx
              simp at hx
        · rw [hrun, him]
          refine ⟨failRun_ok _ _ _ _ _, failRun_written _ _ _ _ _, ?_, ?_⟩ <;>
            · intro x hx
              rw [failRun_events] at hx
              simp at hx
        · exact absurd hhd hmagic
  · intro env md5fn fname ff content hfs hmagic
    rcases fileupdate_cases env md5fn fname ff with ⟨e, hres2, hrun⟩ | ⟨upd, hres2, hcase⟩
    · rw [hrun]
      refine ⟨failRun_ok _ _ _ _ _, failRun_written _ _ _ _ _, ?_, ?_⟩ <;>
        · intro x hx
          rw [failRun_events] at hx
          simp at hx
    · rcases hcase with hrun | hrun | ⟨hfs2, hrun⟩ |
        ⟨content2, hfs2, ⟨-, hrun⟩ | ⟨-, -, hrun⟩ | ⟨-, -, hrun⟩ | ⟨-, hhd, hrun⟩⟩
      · rw [hrun]
        refine ⟨failRun_ok _ _ _ _ _, failRun_written _ _ _ _ _, ?_, ?_⟩ <;>
          · intro x hx
            rw [failRun_events] at hx
            simp at hx
      · rw [hrun]
        refine ⟨failRun_ok _ _ _ _ _, failRun_written _ _ _ _ _, ?_, ?_⟩ <;>
          · intro x hx
            rw [failRun_events] at hx
            simp at hx
      · rw [hfs] at hfs2
        cases hfs2
      · rw [hrun]
        refine ⟨failRun_ok _ _ _ _ _, failRun_written _ _ _ _ _, ?_, ?_⟩ <;>
          · intro x hx
            rw [failRun_events] at hx
            simp at hx
      · rw [hrun]
        refine ⟨failRun_ok _ _ _ _ _, failRun_written _ _ _ _ _, ?_, ?_⟩ <;>
          · intro x hx
            rw [failRun_events] at hx
            simp at hx
      · rw [hrun]
        refine ⟨failRun_ok _ _ _ _ _, failRun_written _ _ _ _ _, ?_, ?_⟩ <;>
          · intro x hx
            rw [failRun_events] at hx
            simp at hx
      · rw [hfs] at hfs2
        injection hfs2 with hfs3
        subst hfs3
        exact absurd hhd hmagic

theorem c6_bad_magic_aborts_witness :
    (mpy_ota_update (envWith ⟨hdrBad, []⟩ ⟨[], []⟩) md5Zero false false).ok = false ∧
    (mpy_ota_update (envWith ⟨hdrBad, []⟩ ⟨[], []⟩) md5Zero false false).written = 0 ∧
    (∀ c, Ev.otaWrite c
      ∉ (mpy_ota_update (envWith ⟨hdrBad, []⟩ ⟨[], []⟩) md5Zero false false).events) ∧
    (∀ q, Ev.setBoot q
      ∉ (mpy_ota_update (envWith ⟨hdrBad, []⟩ ⟨[], []⟩) md5Zero false false).events) :=
  c6_bad_magic_aborts.1 (envWith ⟨hdrBad, []⟩ ⟨[], []⟩) md5Zero false false pOta2
    (by rfl) (by decide)

/-- C7: the header reader does NOT stay inside its 512-byte scratch window.
Under the partial-read schedule 10, 502, 10 against a 600-byte delimiter-free
stream, the third `recv` is issued with the stale window remainder
`512 - buff_len` of the previous read instead of `512 - idx`, so bytes are
accumulated up to offset 600 — 87 bytes past the 513-byte buffer — before
the reader reports failure (it does also return an empty body, but only
after the out-of-window writes). -/
theorem c7_header_window_overrun :
    512 < (get_header ⟨List.replicate 600 65, [10, 502, 10]⟩ 0 100000 1).maxWrite ∧
    (get_header ⟨List.replicate 600 65, [10, 502, 10]⟩ 0 100000 1).maxWrite = 600 ∧
    (get_header ⟨List.replicate 600 65, [10, 502, 10]⟩ 0 100000 1).body = [] := by
  decide

/-- C8: no local-file update run ever compares a sidecar digest.  The source
builds the checksum path with `strcpy(md5_fname, fname)` and never appends a
suffix, so the "sidecar" consulted is the update file itself; the digest is
loaded only when that file is under 100 bytes, yet the update requires the
same file to exceed 100000 bytes, so the loaded digest is always empty and
the digest comparison is never performed in any run, for every filesystem,
file name and flag — contradicting the claim that some run loads and
verifies a well-formed sidecar digest. -/
theorem c8_sidecar_digest_never_verified :
    ∀ (env : FileEnv) (md5fn : List Nat → List Nat) (fname : String) (ff : Bool),
      (mpy_ota_fileupdate env md5fn fname ff).digestCompared = false := by
  intro env md5fn fname ff
  rcases fileupdate_cases env md5fn fname ff with ⟨e, hres2, hrun⟩ | ⟨upd, hres2, hcase⟩
  · rw [hrun, failRun_compared]
  · rcases hcase with hrun | hrun | ⟨-, hrun⟩ |
      ⟨content, hfs, ⟨-, hrun⟩ | ⟨-, -, hrun⟩ | ⟨-, -, hrun⟩ | ⟨hbig, -, hrun⟩⟩
    · rw [hrun, failRun_compared]
    · rw [hrun, failRun_compared]
    · rw [hrun, failRun_compared]
    · rw [hrun, failRun_compared]
    · rw [hrun, failRun_compared]
    · rw [hrun, failRun_compared]
    · have hmd : loadFileMd5 env.fs fname = [] := by
        unfold loadFileMd5
        rw [hfs]
        dsimp only
        rw [if_neg (by omega)]
      obtain ⟨-, -, -, -, -, -, -, hcmp⟩ := postFile_spec upd (loadFileMd5 env.fs fname)
        md5fn (content.length : Int) env.otaEndOk env.setBootOk
        (file_loop (content.length + 2) (content.drop BUFFSIZE) (content.take BUFFSIZE)
          (content.length : Int) upd.size env.otaWriteOk 0 (content.length : Int) []
          [Ev.otaBegin])
      rw [hrun]
      exact hcmp (by rw [hmd]; decide)

/-- C9: `mod_ota_set_boot` resolves the label through exactly three lookups —
factory subtype first, then OTA slot 0, then OTA slot 1 — the first hit being
the partition handed to `esp_ota_set_boot_partition`, and the call succeeds
iff some lookup hit and the set-boot call itself succeeds; when all three
miss, nothing is attempted and the result is failure. -/
theorem c9_set_boot_priority (table : List Partition) (label : String) (setOk : Bool) :
    (mod_ota_set_boot table label setOk).attempted
      = ((esp_partition_find_first table TYPE_APP SUBTYPE_FACTORY label).orElse
          (fun _ => (esp_partition_find_first table TYPE_APP SUBTYPE_OTA0 label).orElse
            (fun _ => esp_partition_find_first table TYPE_APP SUBTYPE_OTA1 label))) ∧
    (mod_ota_set_boot table label setOk).ok
      = (((esp_partition_find_first table TYPE_APP SUBTYPE_FACTORY label).orElse
          (fun _ => (esp_partition_find_first table TYPE_APP SUBTYPE_OTA0 label).orElse
            (fun _ => esp_partition_find_first table TYPE_APP SUBTYPE_OTA1 label))).isSome
        && setOk) := by
  unfold mod_ota_set_boot
  cases h1 : esp_partition_find_first table TYPE_APP SUBTYPE_FACTORY label with
  | some p =>
    rw [if_neg (by simp)]
    dsimp only
    exact ⟨rfl, rfl⟩
  | none =>
    cases h2 : esp_partition_find_first table TYPE_APP SUBTYPE_OTA0 label with
    | some p =>
      rw [if_neg (by simp)]
      dsimp only
      exact ⟨rfl, rfl⟩
    | none =>
      cases h3 : esp_partition_find_first table TYPE_APP SUBTYPE_OTA1 label with
      | some p =>
        rw [if_neg (by simp)]
        dsimp only
        exact ⟨rfl, rfl⟩
      | none =>
        rw [if_pos ⟨rfl, rfl, rfl⟩]
        exact ⟨rfl, rfl⟩

/-- C10: with force-factory requested and a non-factory running partition,
the target lookup in both update paths is exactly
`esp_partition_find_first(APP, FACTORY, "MicroPython")`: any partition it
yields is a factory partition labelled precisely `MicroPython`, and when no
such partition exists both paths fail with the partition-lookup failure
before any event — no transfer has begun. -/
theorem c10_force_factory_label :
    (∀ (table : List Partition) (running nextUpd : Option Partition) (rp p : Partition),
      running = some rp → rp.subtype ≠ SUBTYPE_FACTORY →
      resolveUpd table running nextUpd true = .ok p →
      esp_partition_find_first table TYPE_APP SUBTYPE_FACTORY ("MicroPython") = some p ∧
      p.label = "MicroPython" ∧ p.subtype = SUBTYPE_FACTORY ∧ p.ptype = TYPE_APP) ∧
    (∀ (env : NetEnv) (md5fn : List Nat → List Nat) (md5F : Bool) (rp : Partition),
      env.running = some rp → rp.subtype ≠ SUBTYPE_FACTORY →
      esp_partition_find_first env.table TYPE_APP SUBTYPE_FACTORY ("MicroPython") = none →
      (mpy_ota_update env md5fn md5F true).reason = .noUpdatePartition ∧
      (mpy_ota_update env md5fn md5F true).events = [] ∧
      (mpy_ota_update env md5fn md5F true).written = 0 ∧
      (mpy_ota_update env md5fn md5F true).ok = false) ∧
    (∀ (env : FileEnv) (md5fn : List Nat → List Nat) (fname : String) (rp : Partition),
      env.running = some rp → rp.subtype ≠ SUBTYPE_FACTORY →
      esp_partition_find_first env.table TYPE_APP SUBTYPE_FACTORY ("MicroPython") = none →
      (mpy_ota_fileupdate env md5fn fname true).reason = .noUpdatePartition ∧
      (mpy_ota_fileupdate env md5fn fname true).events = [] ∧
      (mpy_ota_fileupdate env md5fn fname true).written = 0 ∧
      (mpy_ota_fileupdate env md5fn fname true).ok = false) := by
  refine ⟨?_, ?_, ?_⟩
  · intro table running nextUpd rp p hrun hsub hres
    unfold resolveUpd at hres
    rw [hrun] at hres
    dsimp only at hres
    rw [if_pos rfl, if_neg hsub] at hres
    cases hlk : esp_partition_find_first table TYPE_APP SUBTYPE_FACTORY ("MicroPython") with
    | none =>
      rw [hlk] at hres
      cases hres
    | some q =>
      rw [hlk] at hres
      injection hres with hres2
      subst hres2
      obtain ⟨ht, hs, hl⟩ := find_first_label hlk
      exact ⟨rfl, hl, hs, ht⟩
  · intro env md5fn md5F rp hrun hsub hlk
    have hres : resolveUpd env.table env.running env.nextUpdate true
        = .error .noUpdatePartition := by
      unfold resolveUpd
      rw [hrun]
      dsimp only
      rw [if_pos rfl, if_neg hsub, hlk]
    rcases update_cases env md5fn md5F true with ⟨e, hres2, hrun2⟩ | ⟨upd, hres2, hcase⟩
    · rw [hres] at hres2
      injection hres2 with hres3
      subst hres3
      rw [hrun2]
      exact ⟨failRun_reason _ _ _ _ _, failRun_events _ _ _ _ _, failRun_written _ _ _ _ _,
        failRun_ok _ _ _ _ _⟩
    · rw [hres] at hres2
      cases hres2
  · intro env md5fn fname rp hrun hsub hlk
    have hres : resolveUpd env.table env.running env.nextUpdate true
        = .error .noUpdatePartition := by
      unfold resolveUpd
      rw [hrun]
      dsimp only
      rw [if_pos rfl, if_neg hsub, hlk]
    rcases fileupdate_cases env md5fn fname true with ⟨e, hres2, hrun2⟩ | ⟨upd, hres2, hcase⟩
    · rw [hres] at hres2
      injection hres2 with hres3
      subst hres3
      rw [hrun2]
      exact ⟨failRun_reason _ _ _ _ _, failRun_events _ _ _ _ _, failRun_written _ _ _ _ _,
        failRun_ok _ _ _ _ _⟩
    · rw [hres] at hres2
      cases hres2

theorem c10_force_factory_label_witness :
    (esp_partition_find_first [pOta1, pFact] TYPE_APP SUBTYPE_FACTORY ("MicroPython")
        = some pFact ∧
      pFact.label = "MicroPython" ∧ pFact.subtype = SUBTYPE_FACTORY ∧
      pFact.ptype = TYPE_APP) ∧
    ((mpy_ota_update (envWith ⟨hdrOk3, []⟩ ⟨[], []⟩) md5Zero false true).reason
        = .noUpdatePartition ∧
      (mpy_ota_update (envWith ⟨hdrOk3, []⟩ ⟨[], []⟩) md5Zero false true).events = [] ∧
      (mpy_ota_update (envWith ⟨hdrOk3, []⟩ ⟨[], []⟩) md5Zero false true).written = 0 ∧
      (mpy_ota_update (envWith ⟨hdrOk3, []⟩ ⟨[], []⟩) md5Zero false true).ok = false) :=
  ⟨c10_force_factory_label.1 [pOta1, pFact] (some pOta1) none pOta1 pFact (by rfl)
      (by decide) (by rfl),
   c10_force_factory_label.2.1 (envWith ⟨hdrOk3, []⟩ ⟨[], []⟩) md5Zero false pOta1
     (by rfl) (by decide) (by rfl)⟩

theorem c1_written_within_capacity_witness :
    writeSum [Ev.otaBegin, Ev.otaWrite [233, 7, 9], Ev.otaEnd, Ev.setBoot pOta2]
        ≤ pOta2.size ∧
    (mpy_ota_update (envWith ⟨hdrOk3, []⟩ ⟨[], []⟩) md5Zero false false).written
      ≤ pOta2.size :=
  c1_written_within_capacity.1 (envWith ⟨hdrOk3, []⟩ ⟨[], []⟩) md5Zero false false pOta2
    [Ev.otaBegin, Ev.otaWrite [233, 7, 9], Ev.otaEnd, Ev.setBoot pOta2] []
    (by decide) (by decide) (by decide)
